import Mathlib

set_option maxHeartbeats 1000000

namespace UvmTools

/-!
Shallow embedding of the event-tracing core in
kernel-open/nvidia-uvm/uvm_tools.c.  Machine integers (NvU32, NvU64) are
modelled as Nat with explicit reduction modulo 2^32 where the C unsigned
arithmetic can wrap.  The embedding is sequential: every access the source
performs under a lock is modelled as one atomic step of the corresponding
Lean function.
-/

/-- Modulus of the C type NvU32. -/
def U32MOD : Nat := 2 ^ 32

/-- Value obtained by an atomic_read of an NvU32 cell holding x. -/
def u32 (x : Nat) : Nat := x % U32MOD

/-- C unsigned 32-bit subtraction a - b (wraps modulo 2^32). -/
def u32sub (a b : Nat) : Nat := (u32 a + (U32MOD - u32 b)) % U32MOD

/-- Fixed-size event record (UvmEventEntry).  eventType is the leading
discriminant; payload stands for the populated variant fields; the record
size is uniform across event kinds. -/
structure UvmEventEntry where
  eventType : Nat
  payload : Nat
  stale : Nat
deriving DecidableEq, Repr

instance : Inhabited UvmEventEntry := ⟨⟨0, 0, 0⟩⟩

/-- UvmToolsEventControlData: the control block mapped read-write into the
untrusted consumer.  The four cursors are NvU32 cells, dropped is the
per-event-type NvU64 drop-counter array. -/
structure UvmToolsEventControlData where
  get_ahead : Nat
  get_behind : Nat
  put_ahead : Nat
  put_behind : Nat
  dropped : Nat → Nat

/-- uvm_tools_queue_t: the producer-side queue subscriber state.  The
spinlock is omitted (the embedding is sequential); wait_queue is reduced to
the signal flag returned by enqueue_event. -/
structure uvm_tools_queue_t where
  queue_buffer_count : Nat
  notification_threshold : Nat
  control : UvmToolsEventControlData
  queue : Nat → UvmEventEntry
  is_wakeup_get_valid : Bool
  wakeup_get : Nat

/-- uvm_tools_queue_snapshot_t from the source. -/
structure uvm_tools_queue_snapshot_t where
  get_ahead : Nat
  get_behind : Nat
  put_ahead : Nat
  put_behind : Nat

/-- queue_needs_wakeup (uvm_tools.c:364-370): number of unread records,
computed in NvU32 arithmetic from the producer view, compared against the
notification threshold. -/
def queue_needs_wakeup (queue : uvm_tools_queue_t) (sn : uvm_tools_queue_snapshot_t) : Bool :=
  let queue_mask := queue.queue_buffer_count - 1
  decide (u32sub (queue.queue_buffer_count + sn.put_behind) sn.get_ahead &&& queue_mask ≥
    queue.notification_threshold)

/-- enqueue_event (uvm_tools.c:433-480).  Returns the updated queue state
and whether blockq_flush released the consumer wait condition.  get_behind
and put_behind are masked on read; get_ahead is read raw, exactly as in the
source.  The free-slot expression queue_size + get_behind − put_behind is
computed in Nat: with the masked operands below the capacity it never
underflows, and it matches the source's NvU32 arithmetic for every
capacity an NvU32 buffer count can hold. -/
def enqueue_event (entry : UvmEventEntry) (q : uvm_tools_queue_t) : uvm_tools_queue_t × Bool :=
  let ctrl := q.control
  let queue_size := q.queue_buffer_count
  let queue_mask := queue_size - 1
  let sn_get_behind := u32 ctrl.get_behind &&& queue_mask
  let sn_put_behind := u32 ctrl.put_behind &&& queue_mask
  let sn_put_ahead := (sn_put_behind + 1) &&& queue_mask
  if (queue_size + sn_get_behind - sn_put_behind) &&& queue_mask == 1 then
    let ctrl' := { ctrl with
      dropped := fun t => if t = entry.eventType then ctrl.dropped t + 1 else ctrl.dropped t }
    ({ q with control := ctrl' }, false)
  else
    let queue' := fun i => if i = sn_put_behind then entry else q.queue i
    let sn_put_behind' := sn_put_ahead
    let ctrl' := { ctrl with put_ahead := sn_put_behind', put_behind := sn_put_behind' }
    let sn_get_ahead := u32 ctrl.get_ahead
    let sn : uvm_tools_queue_snapshot_t :=
      { get_ahead := sn_get_ahead, get_behind := sn_get_behind,
        put_ahead := sn_put_ahead, put_behind := sn_put_behind' }
    let q1 := { q with control := ctrl', queue := queue' }
    if queue_needs_wakeup q1 sn && !(q.is_wakeup_get_valid && q.wakeup_get == sn_get_ahead) then
      ({ q1 with is_wakeup_get_valid := true, wakeup_get := sn_get_ahead }, true)
    else
      (q1, false)

/-- Variant of enqueue_event that follows the words of the specification
for claim comparison: every consumer-owned cursor, get_ahead included, is
masked into the valid index range before any use.  It differs from the
source only in the treatment of get_ahead. -/
def enqueue_event_masked (entry : UvmEventEntry) (q : uvm_tools_queue_t) : uvm_tools_queue_t × Bool :=
  let ctrl := q.control
  let queue_size := q.queue_buffer_count
  let queue_mask := queue_size - 1
  let sn_get_behind := u32 ctrl.get_behind &&& queue_mask
  let sn_put_behind := u32 ctrl.put_behind &&& queue_mask
  let sn_put_ahead := (sn_put_behind + 1) &&& queue_mask
  if (queue_size + sn_get_behind - sn_put_behind) &&& queue_mask == 1 then
    let ctrl' := { ctrl with
      dropped := fun t => if t = entry.eventType then ctrl.dropped t + 1 else ctrl.dropped t }
    ({ q with control := ctrl' }, false)
  else
    let queue' := fun i => if i = sn_put_behind then entry else q.queue i
    let sn_put_behind' := sn_put_ahead
    let ctrl' := { ctrl with put_ahead := sn_put_behind', put_behind := sn_put_behind' }
    let sn_get_ahead := u32 ctrl.get_ahead &&& queue_mask
    let sn : uvm_tools_queue_snapshot_t :=
      { get_ahead := sn_get_ahead, get_behind := sn_get_behind,
        put_ahead := sn_put_ahead, put_behind := sn_put_behind' }
    let q1 := { q with control := ctrl', queue := queue' }
    if queue_needs_wakeup q1 sn && !(q.is_wakeup_get_valid && q.wakeup_get == sn_get_ahead) then
      ({ q1 with is_wakeup_get_valid := true, wakeup_get := sn_get_ahead }, true)
    else
      (q1, false)

/-- Freshly attached queue of capacity 2^k with the given notification
threshold: all cursors zero, drop counters zero, no wakeup signalled. -/
def initQueue (k th : Nat) : uvm_tools_queue_t :=
  { queue_buffer_count := 2 ^ k
    notification_threshold := th
    control :=
      { get_ahead := 0, get_behind := 0, put_ahead := 0, put_behind := 0,
        dropped := fun _ => 0 }
    queue := fun _ => default
    is_wakeup_get_valid := false
    wakeup_get := 0 }

/-- Sequence of producer enqueues with no consumer activity. -/
def enqueueAll (es : List UvmEventEntry) (q : uvm_tools_queue_t) : uvm_tools_queue_t :=
  es.foldl (fun q e => (enqueue_event e q).1) q

lemma two_le_two_pow {k : Nat} (hk : 1 ≤ k) : 2 ≤ 2 ^ k := by
  calc 2 = 2 ^ 1 := rfl
  _ ≤ 2 ^ k := Nat.pow_le_pow_right (by omega) hk

lemma pow_le_u32 {k : Nat} (hk32 : k ≤ 32) : 2 ^ k ≤ U32MOD :=
  Nat.pow_le_pow_right (by omega) hk32

lemma u32_small {x : Nat} (hx : x < U32MOD) : u32 x = x := Nat.mod_eq_of_lt hx

lemma u32_zero : u32 0 = 0 := rfl

/-- The full-queue test of enqueue_event, written with the C bitmask,
equals the mod-capacity arithmetic of the spec. -/
lemma full_test_eq (k gb pb : Nat) :
    ((2 ^ k + gb - pb) &&& (2 ^ k - 1)) = (2 ^ k + gb - pb) % 2 ^ k :=
  Nat.and_pow_two_sub_one_eq_mod _ k

/-- enqueue_event on a full queue (general consumer-written cursors):
exactly the drop counter of the entry's event type is bumped, nothing else
changes, and no wakeup is signalled. -/
lemma enqueue_event_full_general (q : uvm_tools_queue_t) (e : UvmEventEntry) (k : Nat)
    (hcap : q.queue_buffer_count = 2 ^ k)
    (hfull : (2 ^ k + u32 q.control.get_behind % 2 ^ k - u32 q.control.put_behind % 2 ^ k) %
      2 ^ k = 1) :
    enqueue_event e q =
      ({ q with control := { q.control with
          dropped := fun t => if t = e.eventType then q.control.dropped t + 1
            else q.control.dropped t } }, false) := by
  unfold enqueue_event
  simp only [hcap, Nat.and_pow_two_sub_one_eq_mod, hfull]
  rfl

/-- enqueue_event on a non-full queue (general consumer-written cursors):
the record is copied into the slot named by the masked put_behind cursor,
both producer cursors advance to the masked successor, and no drop counter
changes. -/
lemma enqueue_event_store_general (q : uvm_tools_queue_t) (e : UvmEventEntry) (k : Nat)
    (hcap : q.queue_buffer_count = 2 ^ k)
    (hnfull : (2 ^ k + u32 q.control.get_behind % 2 ^ k - u32 q.control.put_behind % 2 ^ k) %
      2 ^ k ≠ 1) :
    (enqueue_event e q).1.queue (u32 q.control.put_behind % 2 ^ k) = e ∧
    (∀ i, i ≠ u32 q.control.put_behind % 2 ^ k → (enqueue_event e q).1.queue i = q.queue i) ∧
    (enqueue_event e q).1.control.dropped = q.control.dropped ∧
    (enqueue_event e q).1.control.put_behind = (u32 q.control.put_behind % 2 ^ k + 1) % 2 ^ k ∧
    (enqueue_event e q).1.control.put_ahead = (u32 q.control.put_behind % 2 ^ k + 1) % 2 ^ k ∧
    (enqueue_event e q).1.control.get_ahead = q.control.get_ahead ∧
    (enqueue_event e q).1.control.get_behind = q.control.get_behind ∧
    (enqueue_event e q).1.queue_buffer_count = q.queue_buffer_count ∧
    (enqueue_event e q).1.notification_threshold = q.notification_threshold := by
  unfold enqueue_event
  simp only [hcap, Nat.and_pow_two_sub_one_eq_mod, hnfull]
  split
  · rename_i h
    simp only [beq_iff_eq] at h
    exact absurd h hnfull
  · split <;> simp <;> intro i hi hi2 <;> exact absurd hi2 hi

/-- One producer enqueue on a clean queue (consumer idle, cursors in their
producer-maintained positions) that is not yet full: the record lands in
slot p and the producer cursors advance to p + 1. -/
lemma enqueue_event_clean_store (k : Nat) (hk : 1 ≤ k) (hk32 : k ≤ 32)
    (q : uvm_tools_queue_t) (e : UvmEventEntry) (p : Nat)
    (hcap : q.queue_buffer_count = 2 ^ k)
    (hga : q.control.get_ahead = 0) (hgb : q.control.get_behind = 0)
    (hpb : q.control.put_behind = p) (hp : p < 2 ^ k - 1) :
    (enqueue_event e q).1.queue_buffer_count = 2 ^ k ∧
    (enqueue_event e q).1.control.get_ahead = 0 ∧
    (enqueue_event e q).1.control.get_behind = 0 ∧
    (enqueue_event e q).1.control.put_ahead = p + 1 ∧
    (enqueue_event e q).1.control.put_behind = p + 1 ∧
    (enqueue_event e q).1.control.dropped = q.control.dropped ∧
    (enqueue_event e q).1.queue p = e ∧
    (∀ i, i ≠ p → (enqueue_event e q).1.queue i = q.queue i) := by
  have h2 : 2 ≤ 2 ^ k := two_le_two_pow hk
  have hpu : p < U32MOD := lt_of_lt_of_le (by omega) (pow_le_u32 hk32)
  have hup : u32 q.control.put_behind % 2 ^ k = p := by
    rw [hpb, u32_small hpu, Nat.mod_eq_of_lt (by omega)]
  have hnfull : (2 ^ k + u32 q.control.get_behind % 2 ^ k - u32 q.control.put_behind % 2 ^ k) %
      2 ^ k ≠ 1 := by
    rw [hgb, hup, u32_zero, Nat.zero_mod, Nat.add_zero]
    rcases Nat.eq_zero_or_pos p with hp0 | hp0
    · rw [hp0, Nat.sub_zero, Nat.mod_self]; omega
    · rw [Nat.mod_eq_of_lt (by omega)]; omega
  obtain ⟨h1, h2', h3, h4, h5, h6, h7, h8, h9⟩ :=
    enqueue_event_store_general q e k hcap hnfull
  rw [hup] at h1 h2' h4 h5
  have hsucc : (p + 1) % 2 ^ k = p + 1 := Nat.mod_eq_of_lt (by omega)
  rw [hsucc] at h4 h5
  exact ⟨by rw [h8, hcap], by rw [h6, hga], by rw [h7, hgb], h5, h4, h3, h1,
    fun i hi => h2' i hi⟩

/-- One producer enqueue on a clean queue that is full (put_behind at
capacity − 1 with the consumer cursors at 0): the entry's drop counter is
bumped and nothing else changes. -/
lemma enqueue_event_clean_full (k : Nat) (hk : 1 ≤ k) (hk32 : k ≤ 32)
    (q : uvm_tools_queue_t) (e : UvmEventEntry)
    (hcap : q.queue_buffer_count = 2 ^ k)
    (_hga : q.control.get_ahead = 0) (hgb : q.control.get_behind = 0)
    (hpb : q.control.put_behind = 2 ^ k - 1) :
    enqueue_event e q =
      ({ q with control := { q.control with
          dropped := fun t => if t = e.eventType then q.control.dropped t + 1
            else q.control.dropped t } }, false) := by
  have h2 : 2 ≤ 2 ^ k := two_le_two_pow hk
  have hpu : 2 ^ k - 1 < U32MOD := lt_of_lt_of_le (by omega) (pow_le_u32 hk32)
  have hfull : (2 ^ k + u32 q.control.get_behind % 2 ^ k - u32 q.control.put_behind % 2 ^ k) %
      2 ^ k = 1 := by
    rw [hgb, hpb, u32_small hpu, u32_zero, Nat.zero_mod, Nat.add_zero]
    have ha : (2 ^ k - 1) % 2 ^ k = 2 ^ k - 1 := Nat.mod_eq_of_lt (by omega)
    rw [ha]
    have hb : 2 ^ k - (2 ^ k - 1) = 1 := by omega
    rw [hb]
    exact Nat.mod_eq_of_lt (by omega)
  exact enqueue_event_full_general q e k hcap hfull

/-- State reached by a sequence of producer enqueues on a fresh queue of
capacity 2^k with an idle consumer: the first capacity − 1 records are
stored in order, the producer cursors stop at capacity − 1, and every
further enqueue only bumps the drop counter of its event type. -/
lemma enqueueAll_spec (k th t : Nat) (hk : 1 ≤ k) (hk32 : k ≤ 32)
    (es : List UvmEventEntry) (ht : ∀ e ∈ es, e.eventType = t) :
    (enqueueAll es (initQueue k th)).queue_buffer_count = 2 ^ k ∧
    (enqueueAll es (initQueue k th)).control.get_ahead = 0 ∧
    (enqueueAll es (initQueue k th)).control.get_behind = 0 ∧
    (enqueueAll es (initQueue k th)).control.put_ahead = min es.length (2 ^ k - 1) ∧
    (enqueueAll es (initQueue k th)).control.put_behind = min es.length (2 ^ k - 1) ∧
    (enqueueAll es (initQueue k th)).control.dropped t =
      es.length - min es.length (2 ^ k - 1) ∧
    (∀ t', t' ≠ t → (enqueueAll es (initQueue k th)).control.dropped t' = 0) ∧
    (∀ i, i < min es.length (2 ^ k - 1) →
      (enqueueAll es (initQueue k th)).queue i = es.getD i default) := by
  have h2 : 2 ≤ 2 ^ k := two_le_two_pow hk
  induction es using List.reverseRecOn with
  | nil =>
    refine ⟨rfl, rfl, rfl, by simp [enqueueAll, initQueue], by simp [enqueueAll, initQueue],
      by simp [enqueueAll, initQueue], fun t' _ => rfl, fun i hi => by simp at hi⟩
  | append_singleton es e ih =>
    have ht' : ∀ x ∈ es, x.eventType = t := fun x hx => ht x (by simp [hx])
    have hte : e.eventType = t := ht e (by simp)
    obtain ⟨h1, h2', h3, h4, h5, h6, h7, h8⟩ := ih ht'
    have hfold : enqueueAll (es ++ [e]) (initQueue k th) =
        (enqueue_event e (enqueueAll es (initQueue k th))).1 := by
      simp [enqueueAll]
    rcases Nat.lt_or_ge es.length (2 ^ k - 1) with hS | hS
    · have hmin : min es.length (2 ^ k - 1) = es.length := by omega
      rw [hmin] at h4 h5 h6 h8
      obtain ⟨g1, g2, g3, g4, g5, g6, g7, g9⟩ :=
        enqueue_event_clean_store k hk hk32 _ e es.length h1 h2' h3 h5 hS
      have hmin' : min (es ++ [e]).length (2 ^ k - 1) = es.length + 1 := by
        simp only [List.length_append, List.length_singleton]; omega
      rw [hfold, hmin']
      refine ⟨g1, g2, g3, g4, g5, ?_, ?_, ?_⟩
      · rw [g6, h6]
        simp only [List.length_append, List.length_singleton]
        omega
      · intro t' ht'2
        rw [g6]; exact h7 t' ht'2
      · intro i hi
        rcases Nat.lt_or_ge i es.length with hilt | hige
        · rw [g9 i (by omega), h8 i hilt]
          simp only [List.getD_eq_getElem?_getD]
          rw [List.getElem?_append_left hilt]
        · have hieq : i = es.length := by omega
          subst hieq
          rw [g7]
          simp only [List.getD_eq_getElem?_getD]
          rw [List.getElem?_append_right (le_refl _)]
          simp
    · have hmin : min es.length (2 ^ k - 1) = 2 ^ k - 1 := by omega
      rw [hmin] at h4 h5 h6 h8
      have hfull := enqueue_event_clean_full k hk hk32 _ e h1 h2' h3 h5
      have hmin' : min (es ++ [e]).length (2 ^ k - 1) = 2 ^ k - 1 := by
        simp only [List.length_append, List.length_singleton]; omega
      rw [hfold, hfull, hmin']
      refine ⟨h1, h2', h3, h4, h5, ?_, ?_, ?_⟩
      · simp [hte, h6]
        omega
      · intro t' ht'2
        simp [hte, ht'2, h7 t' ht'2]
      · intro i hi
        rw [h8 i (by omega)]
        simp only [List.getD_eq_getElem?_getD]
        rw [List.getElem?_append_left (by omega)]

/-- queue_needs_wakeup reads only the capacity and the notification
threshold of the queue argument. -/
lemma queue_needs_wakeup_congr (a b : uvm_tools_queue_t) (sn : uvm_tools_queue_snapshot_t)
    (h1 : a.queue_buffer_count = b.queue_buffer_count)
    (h2 : a.notification_threshold = b.notification_threshold) :
    queue_needs_wakeup a sn = queue_needs_wakeup b sn := by
  simp [queue_needs_wakeup, h1, h2]

/-- Explicit form of enqueue_event on the storing path, in the raw bitmask
arithmetic of the source. -/
lemma enqueue_event_store_eq (q : uvm_tools_queue_t) (e : UvmEventEntry)
    (hnfull : ((q.queue_buffer_count +
        (u32 q.control.get_behind &&& (q.queue_buffer_count - 1)) -
        (u32 q.control.put_behind &&& (q.queue_buffer_count - 1))) &&&
      (q.queue_buffer_count - 1)) ≠ 1) :
    enqueue_event e q =
      (if (queue_needs_wakeup q
            { get_ahead := u32 q.control.get_ahead,
              get_behind := u32 q.control.get_behind &&& (q.queue_buffer_count - 1),
              put_ahead := ((u32 q.control.put_behind &&& (q.queue_buffer_count - 1)) + 1) &&&
                (q.queue_buffer_count - 1),
              put_behind := ((u32 q.control.put_behind &&& (q.queue_buffer_count - 1)) + 1) &&&
                (q.queue_buffer_count - 1) } &&
          !(q.is_wakeup_get_valid && q.wakeup_get == u32 q.control.get_ahead)) then
        ({ q with
            control := { q.control with
              put_ahead := ((u32 q.control.put_behind &&& (q.queue_buffer_count - 1)) + 1) &&&
                (q.queue_buffer_count - 1),
              put_behind := ((u32 q.control.put_behind &&& (q.queue_buffer_count - 1)) + 1) &&&
                (q.queue_buffer_count - 1) },
            queue := fun i =>
              if i = (u32 q.control.put_behind &&& (q.queue_buffer_count - 1)) then e
              else q.queue i,
            is_wakeup_get_valid := true,
            wakeup_get := u32 q.control.get_ahead }, true)
      else
        ({ q with
            control := { q.control with
              put_ahead := ((u32 q.control.put_behind &&& (q.queue_buffer_count - 1)) + 1) &&&
                (q.queue_buffer_count - 1),
              put_behind := ((u32 q.control.put_behind &&& (q.queue_buffer_count - 1)) + 1) &&&
                (q.queue_buffer_count - 1) },
            queue := fun i =>
              if i = (u32 q.control.put_behind &&& (q.queue_buffer_count - 1)) then e
              else q.queue i },
          false)) := by
  unfold enqueue_event
  rw [if_neg (by simpa using hnfull)]
  rfl

/-- Signal behaviour of a storing enqueue: the wait condition is released
exactly when queue_needs_wakeup holds on the published snapshot, using the
raw get_ahead just read, and no wakeup was already signalled for that
exact get_ahead value; signalling records that value. -/
lemma enqueue_event_signal_charac (q : uvm_tools_queue_t) (e : UvmEventEntry) (k : Nat)
    (hcap : q.queue_buffer_count = 2 ^ k)
    (hnfull : (2 ^ k + u32 q.control.get_behind % 2 ^ k - u32 q.control.put_behind % 2 ^ k) %
      2 ^ k ≠ 1) :
    ((enqueue_event e q).2 = true ↔
      (queue_needs_wakeup q
        { get_ahead := u32 q.control.get_ahead,
          get_behind := u32 q.control.get_behind % 2 ^ k,
          put_ahead := (u32 q.control.put_behind % 2 ^ k + 1) % 2 ^ k,
          put_behind := (u32 q.control.put_behind % 2 ^ k + 1) % 2 ^ k } = true ∧
        ¬(q.is_wakeup_get_valid = true ∧ q.wakeup_get = u32 q.control.get_ahead))) ∧
    ((enqueue_event e q).2 = true →
      (enqueue_event e q).1.is_wakeup_get_valid = true ∧
      (enqueue_event e q).1.wakeup_get = u32 q.control.get_ahead) := by
  have hnfull' : ((q.queue_buffer_count +
      (u32 q.control.get_behind &&& (q.queue_buffer_count - 1)) -
      (u32 q.control.put_behind &&& (q.queue_buffer_count - 1))) &&&
      (q.queue_buffer_count - 1)) ≠ 1 := by
    rw [hcap, Nat.and_pow_two_sub_one_eq_mod, Nat.and_pow_two_sub_one_eq_mod,
      Nat.and_pow_two_sub_one_eq_mod]
    exact hnfull
  rw [enqueue_event_store_eq q e hnfull']
  simp only [hcap, Nat.and_pow_two_sub_one_eq_mod]
  rcases hb : (queue_needs_wakeup q
      { get_ahead := u32 q.control.get_ahead,
        get_behind := u32 q.control.get_behind % 2 ^ k,
        put_ahead := (u32 q.control.put_behind % 2 ^ k + 1) % 2 ^ k,
        put_behind := (u32 q.control.put_behind % 2 ^ k + 1) % 2 ^ k } &&
    !(q.is_wakeup_get_valid && q.wakeup_get == u32 q.control.get_ahead)) with hb' | hb'
  · rw [if_neg (by simp [hb])]
    rw [Bool.and_eq_false_iff] at hb
    refine ⟨⟨fun hfalse => (by cases hfalse), ?_⟩, fun hfalse => by cases hfalse⟩
    rintro ⟨hw, hnv⟩
    rcases hb with hb | hb
    · rw [hw] at hb; cases hb
    · rw [Bool.not_eq_false_eq_eq_true, Bool.and_eq_true, beq_iff_eq] at hb
      exact absurd ⟨hb.1, hb.2⟩ hnv
  · rw [if_pos (by simp [hb])]
    rw [Bool.and_eq_true, Bool.not_eq_true'] at hb
    obtain ⟨hw, hv⟩ := hb
    refine ⟨?_, fun _ => ⟨rfl, rfl⟩⟩
    simp only [true_iff]
    refine ⟨hw, ?_⟩
    rintro ⟨hva, hwg⟩
    rw [hva, hwg] at hv
    simp at hv

/-- C1: an enqueue on a ring queue of capacity C = 2^k whose free-slot
count (C + get_behind − put_behind) mod C, computed from the masked
consumer cursors, equals 1 only increments the drop counter of the entry's
event type and returns: no record is written, no producer cursor moves, no
wakeup is signalled.  Any other enqueue copies the record into slot
put_behind and changes no drop counter.  Consequently, starting from a
fresh queue with an idle consumer, N enqueues of events of one type store
exactly min N (C−1) records — the first C−1 entries, in order, left
unchanged by later calls — and every further enqueue increments that event
type's drop counter. -/
theorem c1_ring_queue_drop_semantics :
    (∀ (q : uvm_tools_queue_t) (e : UvmEventEntry) (k : Nat),
      q.queue_buffer_count = 2 ^ k →
      ((2 ^ k + u32 q.control.get_behind % 2 ^ k - u32 q.control.put_behind % 2 ^ k) %
          2 ^ k = 1 →
        enqueue_event e q =
          ({ q with control := { q.control with
              dropped := fun t => if t = e.eventType then q.control.dropped t + 1
                else q.control.dropped t } }, false)) ∧
      ((2 ^ k + u32 q.control.get_behind % 2 ^ k - u32 q.control.put_behind % 2 ^ k) %
          2 ^ k ≠ 1 →
        (enqueue_event e q).1.queue (u32 q.control.put_behind % 2 ^ k) = e ∧
        (∀ i, i ≠ u32 q.control.put_behind % 2 ^ k →
          (enqueue_event e q).1.queue i = q.queue i) ∧
        (enqueue_event e q).1.control.dropped = q.control.dropped ∧
        (enqueue_event e q).1.control.put_behind =
          (u32 q.control.put_behind % 2 ^ k + 1) % 2 ^ k ∧
        (enqueue_event e q).1.control.put_ahead =
          (u32 q.control.put_behind % 2 ^ k + 1) % 2 ^ k)) ∧
    (∀ (k th t : Nat) (es : List UvmEventEntry),
      1 ≤ k → k ≤ 32 → (∀ e ∈ es, e.eventType = t) →
      (enqueueAll es (initQueue k th)).control.put_behind = min es.length (2 ^ k - 1) ∧
      (enqueueAll es (initQueue k th)).control.dropped t =
        es.length - min es.length (2 ^ k - 1) ∧
      (∀ t', t' ≠ t → (enqueueAll es (initQueue k th)).control.dropped t' = 0) ∧
      (∀ i, i < min es.length (2 ^ k - 1) →
        (enqueueAll es (initQueue k th)).queue i = es.getD i default)) := by
  constructor
  · intro q e k hcap
    refine ⟨fun hfull => enqueue_event_full_general q e k hcap hfull, fun hnfull => ?_⟩
    obtain ⟨h1, h2', h3, h4, h5, _, _, _, _⟩ := enqueue_event_store_general q e k hcap hnfull
    exact ⟨h1, h2', h3, h4, h5⟩
  · intro k th t es hk hk32 ht
    obtain ⟨_, _, _, _, h5, h6, h7, h8⟩ := enqueueAll_spec k th t hk hk32 es ht
    exact ⟨h5, h6, h7, h8⟩

/-- Witness for C1 at capacity 4 (k = 2): four enqueues of event type 7
store three records and drop the fourth. -/
theorem c1_ring_queue_drop_semantics_witness :
    (1 ≤ 2 ∧ 2 ≤ 32 ∧
      (∀ e ∈ ([⟨7, 1, 0⟩, ⟨7, 2, 0⟩, ⟨7, 3, 0⟩, ⟨7, 4, 0⟩] : List UvmEventEntry),
        e.eventType = 7)) ∧
    (enqueueAll [⟨7, 1, 0⟩, ⟨7, 2, 0⟩, ⟨7, 3, 0⟩, ⟨7, 4, 0⟩]
      (initQueue 2 2)).control.put_behind = min 4 (2 ^ 2 - 1) ∧
    (enqueueAll [⟨7, 1, 0⟩, ⟨7, 2, 0⟩, ⟨7, 3, 0⟩, ⟨7, 4, 0⟩]
      (initQueue 2 2)).control.dropped 7 = 4 - min 4 (2 ^ 2 - 1) := by
  have h := c1_ring_queue_drop_semantics.2 2 2 7
    [⟨7, 1, 0⟩, ⟨7, 2, 0⟩, ⟨7, 3, 0⟩, ⟨7, 4, 0⟩] (by decide) (by decide) (by decide)
  exact ⟨⟨by decide, by decide, by decide⟩, h.1, h.2.1⟩

/-- Concrete queue state in which the consumer has written the raw value 4
(equal to the capacity) into its get_ahead cursor after a wakeup was
signalled for cursor value 0. -/
def c5_probe_queue : uvm_tools_queue_t :=
  { queue_buffer_count := 4
    notification_threshold := 1
    control :=
      { get_ahead := 4, get_behind := 0, put_ahead := 0, put_behind := 0,
        dropped := fun _ => 0 }
    queue := fun _ => default
    is_wakeup_get_valid := true
    wakeup_get := 0 }

/-- Counterexample to C5 as stated: enqueue_event uses the consumer-owned
get_ahead cursor without masking it into [0, capacity).  With get_ahead
written as 4 (out of range for capacity 4) the source signals a wakeup and
stores the raw out-of-range value 4 in wakeup_get, whereas the
mask-before-any-use discipline the claim describes (enqueue_event_masked)
suppresses the signal because 4 mod 4 = 0 was already signalled. -/
theorem c5_counterexample_get_ahead_unmasked :
    (enqueue_event ⟨7, 1, 0⟩ c5_probe_queue).2 = true ∧
    (enqueue_event ⟨7, 1, 0⟩ c5_probe_queue).1.wakeup_get = 4 ∧
    (enqueue_event_masked ⟨7, 1, 0⟩ c5_probe_queue).2 = false ∧
    c5_probe_queue.queue_buffer_count ≤ u32 c5_probe_queue.control.get_ahead := by
  refine ⟨by decide, by decide, by decide, by decide⟩

/-- C5 amended: the consumer-owned cursors get_behind and put_behind are
masked into [0, capacity) on read before any use, and the only slot index
derived from consumer-writable memory that reaches a memory access is the
masked put_behind, which is below the capacity; get_ahead, however, is
read raw and feeds only the wakeup computation and the last-signalled
comparison, never an index. -/
theorem c5_consumer_cursor_masking :
    ∀ (q : uvm_tools_queue_t) (e : UvmEventEntry) (k : Nat),
      q.queue_buffer_count = 2 ^ k →
      u32 q.control.get_behind % 2 ^ k < 2 ^ k ∧
      u32 q.control.put_behind % 2 ^ k < 2 ^ k ∧
      (∀ i, (enqueue_event e q).1.queue i ≠ q.queue i →
        i = u32 q.control.put_behind % 2 ^ k ∧ i < q.queue_buffer_count) := by
  intro q e k hcap
  have hpos : 0 < 2 ^ k := Nat.pos_pow_of_pos k (by omega)
  refine ⟨Nat.mod_lt _ hpos, Nat.mod_lt _ hpos, ?_⟩
  intro i hi
  by_cases hfull : (2 ^ k + u32 q.control.get_behind % 2 ^ k -
      u32 q.control.put_behind % 2 ^ k) % 2 ^ k = 1
  · rw [enqueue_event_full_general q e k hcap hfull] at hi
    exact absurd rfl hi
  · obtain ⟨_, h2', _, _, _, _, _, _, _⟩ := enqueue_event_store_general q e k hcap hfull
    have : i = u32 q.control.put_behind % 2 ^ k := by
      by_contra hne
      exact hi (h2' i hne)
    exact ⟨this, by rw [hcap, this]; exact Nat.mod_lt _ hpos⟩

/-- Witness for the amended C5 at a queue of capacity 4. -/
theorem c5_consumer_cursor_masking_witness :
    (initQueue 2 1).queue_buffer_count = 2 ^ 2 ∧
    (u32 (initQueue 2 1).control.get_behind % 2 ^ 2 < 2 ^ 2 ∧
      u32 (initQueue 2 1).control.put_behind % 2 ^ 2 < 2 ^ 2 ∧
      (∀ i, (enqueue_event ⟨7, 1, 0⟩ (initQueue 2 1)).1.queue i ≠ (initQueue 2 1).queue i →
        i = u32 (initQueue 2 1).control.put_behind % 2 ^ 2 ∧
        i < (initQueue 2 1).queue_buffer_count)) :=
  ⟨rfl, c5_consumer_cursor_masking (initQueue 2 1) ⟨7, 1, 0⟩ 2 rfl⟩

/-- C8: after a storing enqueue publishes the new producer cursors, the
consumer wait condition is released exactly when the unread-record count
(queue_needs_wakeup on the published state, using the producer's raw view
of get_ahead) has reached the notification threshold and no wakeup has
already been signalled for this exact get_ahead value, and signalling
records that get_ahead value in the wakeup state.  Scenario: on a fresh
queue of capacity 4 with threshold 2, three enqueues of event type 7 store
three records with drop counter 0 — the wakeup being signalled at the
second enqueue, when the count reaches the threshold — and a fourth
enqueue leaves three records stored, sets the drop counter to 1, adds no
new signal of its own, and leaves the queue in the wakeup-signalled
state. -/
theorem c8_wakeup_threshold_semantics :
    (∀ (q : uvm_tools_queue_t) (e : UvmEventEntry) (k : Nat),
      q.queue_buffer_count = 2 ^ k →
      (2 ^ k + u32 q.control.get_behind % 2 ^ k - u32 q.control.put_behind % 2 ^ k) %
        2 ^ k ≠ 1 →
      ((enqueue_event e q).2 = true ↔
        (queue_needs_wakeup q
          { get_ahead := u32 q.control.get_ahead,
            get_behind := u32 q.control.get_behind % 2 ^ k,
            put_ahead := (u32 q.control.put_behind % 2 ^ k + 1) % 2 ^ k,
            put_behind := (u32 q.control.put_behind % 2 ^ k + 1) % 2 ^ k } = true ∧
          ¬(q.is_wakeup_get_valid = true ∧ q.wakeup_get = u32 q.control.get_ahead))) ∧
      ((enqueue_event e q).2 = true →
        (enqueue_event e q).1.is_wakeup_get_valid = true ∧
        (enqueue_event e q).1.wakeup_get = u32 q.control.get_ahead)) ∧
    ((enqueueAll [⟨7, 1, 0⟩, ⟨7, 2, 0⟩, ⟨7, 3, 0⟩]
        (initQueue 2 2)).control.put_behind = 3 ∧
      (enqueueAll [⟨7, 1, 0⟩, ⟨7, 2, 0⟩, ⟨7, 3, 0⟩]
        (initQueue 2 2)).control.dropped 7 = 0 ∧
      (enqueue_event ⟨7, 2, 0⟩ (enqueueAll [⟨7, 1, 0⟩] (initQueue 2 2))).2 = true ∧
      (enqueue_event ⟨7, 4, 0⟩ (enqueueAll [⟨7, 1, 0⟩, ⟨7, 2, 0⟩, ⟨7, 3, 0⟩]
        (initQueue 2 2))).1.control.put_behind = 3 ∧
      (enqueue_event ⟨7, 4, 0⟩ (enqueueAll [⟨7, 1, 0⟩, ⟨7, 2, 0⟩, ⟨7, 3, 0⟩]
        (initQueue 2 2))).1.control.dropped 7 = 1 ∧
      (enqueue_event ⟨7, 4, 0⟩ (enqueueAll [⟨7, 1, 0⟩, ⟨7, 2, 0⟩, ⟨7, 3, 0⟩]
        (initQueue 2 2))).2 = false ∧
      (enqueue_event ⟨7, 4, 0⟩ (enqueueAll [⟨7, 1, 0⟩, ⟨7, 2, 0⟩, ⟨7, 3, 0⟩]
        (initQueue 2 2))).1.is_wakeup_get_valid = true) :=
  ⟨fun q e k hcap hnfull => enqueue_event_signal_charac q e k hcap hnfull,
    by decide, by decide, by decide, by decide, by decide, by decide, by decide⟩

/-- Witness for C8's universally quantified part at a concrete queue. -/
theorem c8_wakeup_threshold_semantics_witness :
    ((initQueue 2 2).queue_buffer_count = 2 ^ 2 ∧
      (2 ^ 2 + u32 (initQueue 2 2).control.get_behind % 2 ^ 2 -
        u32 (initQueue 2 2).control.put_behind % 2 ^ 2) % 2 ^ 2 ≠ 1) ∧
    (((enqueue_event ⟨7, 1, 0⟩ (initQueue 2 2)).2 = true ↔
      (queue_needs_wakeup (initQueue 2 2)
        { get_ahead := u32 (initQueue 2 2).control.get_ahead,
          get_behind := u32 (initQueue 2 2).control.get_behind % 2 ^ 2,
          put_ahead := (u32 (initQueue 2 2).control.put_behind % 2 ^ 2 + 1) % 2 ^ 2,
          put_behind := (u32 (initQueue 2 2).control.put_behind % 2 ^ 2 + 1) % 2 ^ 2 } = true ∧
        ¬((initQueue 2 2).is_wakeup_get_valid = true ∧
          (initQueue 2 2).wakeup_get = u32 (initQueue 2 2).control.get_ahead))) ∧
    ((enqueue_event ⟨7, 1, 0⟩ (initQueue 2 2)).2 = true →
      (enqueue_event ⟨7, 1, 0⟩ (initQueue 2 2)).1.is_wakeup_get_valid = true ∧
      (enqueue_event ⟨7, 1, 0⟩ (initQueue 2 2)).1.wakeup_get =
        u32 (initQueue 2 2).control.get_ahead)) :=
  ⟨⟨rfl, by decide⟩,
    c8_wakeup_threshold_semantics.1 (initQueue 2 2) ⟨7, 1, 0⟩ 2 rfl (by decide)⟩

/-!
Counter aggregator (uvm_tools.c:508-544).  NvProcessorUuid is modelled as
Nat; the concrete uuid constants and the UvmCounterName enum values live
in headers outside this repository, so representative distinct values are
used — no claim depends on the numeric values themselves.
-/

/-- Fixed default CPU identity NV_PROCESSOR_UUID_CPU_DEFAULT. -/
def NV_PROCESSOR_UUID_CPU_DEFAULT : Nat := 0

/-- UvmCounterNameCpuPageFaultCount, the designated legacy counter. -/
def UvmCounterNameCpuPageFaultCount : Nat := 3

/-- uvm_tools_counter_t: one counter subscriber, with its scope (the
all_processors flag and the specific processor identity) and the mapped
accumulator array. -/
structure uvm_tools_counter_t where
  all_processors : Bool
  processor : Nat
  counters : Nat → Nat

/-- counter_matches_processor (uvm_tools.c:508-516). -/
def counter_matches_processor (counter : Nat) (processor : Nat) : Bool :=
  if counter = UvmCounterNameCpuPageFaultCount then
    processor == NV_PROCESSOR_UUID_CPU_DEFAULT
  else
    true

/-- Body of the subscriber loop of uvm_tools_inc_counter
(uvm_tools.c:537-542): the accumulator of the given counter is increased
by amount when the subscriber's scope admits the identity. -/
def inc_counter_subscriber (counter amount processor : Nat)
    (s : uvm_tools_counter_t) : uvm_tools_counter_t :=
  if (s.all_processors && counter_matches_processor counter processor) ||
      (s.processor == processor) then
    { s with counters := fun c => if c = counter then s.counters c + amount else s.counters c }
  else s

/-- uvm_tools_inc_counter (uvm_tools.c:518-544): updates every subscriber
registered for the counter; the whole body is guarded by amount > 0. -/
def uvm_tools_inc_counter (subs : List uvm_tools_counter_t)
    (counter amount processor : Nat) : List uvm_tools_counter_t :=
  if 0 < amount then subs.map (inc_counter_subscriber counter amount processor) else subs

/-- C4: for the legacy CPU page-fault counter, each subscriber's
accumulator is incremented by exactly one rule — the all-processors rule,
which for this counter applies only when the identity equals the fixed
default CPU identity, or the exact-identity rule — by amount exactly once
when at least one rule applies and not at all otherwise; for every other
counter an all-processors subscriber is incremented regardless of identity
and a specific-processor subscriber exactly on identity match.  Other
counter ids of the same subscriber are untouched, and the increment
operation applies this per-subscriber rule to every registered
subscriber. -/
theorem c4_counter_increment_rules :
    ∀ (s : uvm_tools_counter_t) (counter amount processor : Nat), 0 < amount →
      ((inc_counter_subscriber counter amount processor s).counters counter = s.counters counter ∨
        (inc_counter_subscriber counter amount processor s).counters counter =
          s.counters counter + amount) ∧
      (counter = UvmCounterNameCpuPageFaultCount →
        ((inc_counter_subscriber counter amount processor s).counters counter =
            s.counters counter + amount ↔
          ((s.all_processors = true ∧ processor = NV_PROCESSOR_UUID_CPU_DEFAULT) ∨
            s.processor = processor))) ∧
      (counter ≠ UvmCounterNameCpuPageFaultCount →
        ((inc_counter_subscriber counter amount processor s).counters counter =
            s.counters counter + amount ↔
          (s.all_processors = true ∨ s.processor = processor))) ∧
      (∀ c, c ≠ counter →
        (inc_counter_subscriber counter amount processor s).counters c = s.counters c) ∧
      (∀ subs : List uvm_tools_counter_t,
        uvm_tools_inc_counter subs counter amount processor =
          subs.map (inc_counter_subscriber counter amount processor)) := by
  intro s counter amount processor hamt
  have hframe : ∀ c, c ≠ counter →
      (inc_counter_subscriber counter amount processor s).counters c = s.counters c := by
    intro c hc
    unfold inc_counter_subscriber
    split
    · simp [hc]
    · rfl
  refine ⟨?_, ?_, ?_, hframe, ?_⟩
  · unfold inc_counter_subscriber
    split
    · right; simp
    · left; rfl
  · intro hcpu
    unfold inc_counter_subscriber counter_matches_processor
    rw [if_pos hcpu]
    constructor
    · intro hinc
      by_contra hno
      push_neg at hno
      obtain ⟨hno1, hno2⟩ := hno
      have hcond : ((s.all_processors && (processor == NV_PROCESSOR_UUID_CPU_DEFAULT)) ||
          (s.processor == processor)) = false := by
        rw [Bool.or_eq_false_iff, Bool.and_eq_false_iff]
        constructor
        · by_cases ha : s.all_processors = true
          · right
            rw [beq_eq_false_iff_ne]
            exact fun hh => (hno1 ha) hh
          · left
            exact Bool.not_eq_true _ ▸ ha
        · rw [beq_eq_false_iff_ne]
          exact hno2
      rw [hcond] at hinc
      simp at hinc
      omega
    · intro hyes
      have hcond : ((s.all_processors && (processor == NV_PROCESSOR_UUID_CPU_DEFAULT)) ||
          (s.processor == processor)) = true := by
        rw [Bool.or_eq_true, Bool.and_eq_true]
        rcases hyes with ⟨h1, h2⟩ | h1
        · exact Or.inl ⟨h1, beq_iff_eq.mpr h2⟩
        · exact Or.inr (beq_iff_eq.mpr h1)
      rw [hcond]
      simp
  · intro hother
    unfold inc_counter_subscriber counter_matches_processor
    rw [if_neg hother]
    constructor
    · intro hinc
      by_contra hno
      push_neg at hno
      obtain ⟨hno1, hno2⟩ := hno
      have hcond : ((s.all_processors && true) || (s.processor == processor)) = false := by
        rw [Bool.or_eq_false_iff, Bool.and_eq_false_iff]
        exact ⟨Or.inl (Bool.not_eq_true _ ▸ hno1), beq_eq_false_iff_ne.mpr hno2⟩
      rw [hcond] at hinc
      simp at hinc
      omega
    · intro hyes
      have hcond : ((s.all_processors && true) || (s.processor == processor)) = true := by
        rw [Bool.or_eq_true, Bool.and_eq_true]
        rcases hyes with h1 | h1
        · exact Or.inl ⟨h1, rfl⟩
        · exact Or.inr (beq_iff_eq.mpr h1)
      rw [hcond]
      simp
  · intro subs
    unfold uvm_tools_inc_counter
    rw [if_pos hamt]

/-- Witness for C4 at a concrete all-processors subscriber and the legacy
counter, incremented with the default CPU identity. -/
theorem c4_counter_increment_rules_witness :
    0 < 5 ∧
    ((inc_counter_subscriber UvmCounterNameCpuPageFaultCount 5 NV_PROCESSOR_UUID_CPU_DEFAULT
        ⟨true, 9, fun _ => 0⟩).counters UvmCounterNameCpuPageFaultCount = 0 ∨
      (inc_counter_subscriber UvmCounterNameCpuPageFaultCount 5 NV_PROCESSOR_UUID_CPU_DEFAULT
        ⟨true, 9, fun _ => 0⟩).counters UvmCounterNameCpuPageFaultCount = 0 + 5) :=
  ⟨by decide,
    (c4_counter_increment_rules ⟨true, 9, fun _ => 0⟩ UvmCounterNameCpuPageFaultCount 5
      NV_PROCESSOR_UUID_CPU_DEFAULT (by decide)).1⟩

/-- C10: incrementing any counter by amount 0 is a no-op on every
subscriber's accumulators — the increment body is guarded by
amount > 0. -/
theorem c10_zero_amount_increment_is_noop :
    ∀ (subs : List uvm_tools_counter_t) (counter processor : Nat),
      uvm_tools_inc_counter subs counter 0 processor = subs := by
  intro subs counter processor
  unfold uvm_tools_inc_counter
  rw [if_neg (by omega)]

/-!
Deferred migration pipeline: record_migration_events
(uvm_tools.c:812-851), run by the background worker on a completed batch.
-/

/-- migration_data_t: one pending migration sub-event of a batch, with its
resolved end GPU timestamp. -/
structure migration_data_t where
  bytes : Nat
  address : Nat
  end_timestamp_gpu : Nat
  cause : Nat
deriving DecidableEq, Repr

instance : Inhabited migration_data_t := ⟨⟨0, 0, 0, 0⟩⟩

/-- block_migration_data_t: the pending async record of one migration
batch (queue_item, va_space pointer and channel linkage omitted — the
worker model is sequential). -/
structure block_migration_data_t where
  dst : Nat
  src : Nat
  start_timestamp_cpu : Nat
  end_timestamp_cpu : Nat
  start_timestamp_gpu : Nat
  range_group_id : Nat
  events : List migration_data_t
deriving DecidableEq, Repr

/-- Representative value of the UvmEventTypeMigration enum constant (the
enum lives in a header outside this repository; no result depends on the
numeric value). -/
def UvmEventTypeMigration : Nat := 2

/-- UvmEventMigrationInfo: the migration event record fields populated by
record_migration_events. -/
structure UvmEventMigrationInfo where
  eventType : Nat
  srcIndex : Nat
  dstIndex : Nat
  beginTimeStamp : Nat
  endTimeStamp : Nat
  rangeGroupId : Nat
  address : Nat
  migratedBytes : Nat
  beginTimeStampGpu : Nat
  endTimeStampGpu : Nat
  migrationCause : Nat
deriving DecidableEq, Repr

instance : Inhabited UvmEventMigrationInfo := ⟨⟨0, 0, 0, 0, 0, 0, 0, 0, 0, 0, 0⟩⟩

/-- Event emitted for one sub-event, given the running gpu_timestamp. -/
def migration_event_of (block_mig : block_migration_data_t) (gpu_timestamp : Nat)
    (mig : migration_data_t) : UvmEventMigrationInfo :=
  { eventType := UvmEventTypeMigration
    srcIndex := block_mig.src
    dstIndex := block_mig.dst
    beginTimeStamp := block_mig.start_timestamp_cpu
    endTimeStamp := block_mig.end_timestamp_cpu
    rangeGroupId := block_mig.range_group_id
    address := mig.address
    migratedBytes := mig.bytes
    beginTimeStampGpu := gpu_timestamp
    endTimeStampGpu := mig.end_timestamp_gpu
    migrationCause := mig.cause }

/-- The list_for_each_entry_safe loop of record_migration_events: drains
the sub-event list in insertion order, emitting one event per detail; the
running gpu_timestamp starts at the batch start timestamp and is advanced
to each sub-event's end timestamp after its emission. -/
def record_migration_events_loop (block_mig : block_migration_data_t)
    (gpu_timestamp : Nat) : List migration_data_t → List UvmEventMigrationInfo
  | [] => []
  | mig :: rest =>
      migration_event_of block_mig gpu_timestamp mig ::
        record_migration_events_loop block_mig mig.end_timestamp_gpu rest

/-- record_migration_events (uvm_tools.c:812-851): returns the events
delivered via uvm_tools_record_event, in delivery order, and the drained
record (sub-event list empty, all details freed) that is then freed. -/
def record_migration_events (block_mig : block_migration_data_t) :
    List UvmEventMigrationInfo × block_migration_data_t :=
  (record_migration_events_loop block_mig block_mig.start_timestamp_gpu block_mig.events,
    { block_mig with events := [] })

/-- Full characterisation of the drain loop. -/
lemma record_migration_events_loop_spec (block_mig : block_migration_data_t) :
    ∀ (ms : List migration_data_t) (ts : Nat),
      (record_migration_events_loop block_mig ts ms).length = ms.length ∧
      (∀ i, i < ms.length →
        (record_migration_events_loop block_mig ts ms).getD i default =
          migration_event_of block_mig
            (if i = 0 then ts else (ms.getD (i - 1) default).end_timestamp_gpu)
            (ms.getD i default)) := by
  intro ms
  induction ms with
  | nil => intro ts; exact ⟨rfl, fun i hi => by simp at hi⟩
  | cons m rest ih =>
    intro ts
    obtain ⟨ihlen, ihget⟩ := ih m.end_timestamp_gpu
    refine ⟨by simp [record_migration_events_loop, ihlen], ?_⟩
    intro i hi
    match i with
    | 0 => simp [record_migration_events_loop]
    | n + 1 =>
      have hn : n < rest.length := by simpa using hi
      have := ihget n hn
      simp only [record_migration_events_loop, List.getD_cons_succ]
      rw [this]
      match n with
      | 0 => simp
      | j + 1 => simp

/-- C2: the background worker, handed a completed migration batch with K
buffered sub-events, emits exactly K events in the sub-events' insertion
order; each emitted event's begin GPU timestamp equals the previous
sub-event's end GPU timestamp, the first one equals the batch's start GPU
timestamp, and afterwards the sub-event list is empty (the record and its
details being freed). -/
theorem c2_deferred_migration_delivery :
    ∀ (block_mig : block_migration_data_t),
      (record_migration_events block_mig).1.length = block_mig.events.length ∧
      (∀ i, i < block_mig.events.length →
        (record_migration_events block_mig).1.getD i default =
          migration_event_of block_mig
            (if i = 0 then block_mig.start_timestamp_gpu
             else (block_mig.events.getD (i - 1) default).end_timestamp_gpu)
            (block_mig.events.getD i default)) ∧
      (∀ i, i < block_mig.events.length →
        ((record_migration_events block_mig).1.getD i default).beginTimeStampGpu =
          (if i = 0 then block_mig.start_timestamp_gpu
           else ((record_migration_events block_mig).1.getD (i - 1) default).endTimeStampGpu)) ∧
      (record_migration_events block_mig).2.events = [] := by
  intro block_mig
  obtain ⟨hlen, hget⟩ := record_migration_events_loop_spec block_mig block_mig.events
    block_mig.start_timestamp_gpu
  refine ⟨hlen, hget, ?_, rfl⟩
  intro i hi
  simp only [record_migration_events]
  rw [hget i hi]
  match i with
  | 0 => simp [migration_event_of]
  | n + 1 =>
    have hn : n < block_mig.events.length := by omega
    simp only [Nat.add_sub_cancel]
    rw [hget n hn]
    simp [migration_event_of]

/-- Witness for C2 on a concrete two-sub-event batch. -/
theorem c2_deferred_migration_delivery_witness :
    (record_migration_events
      ⟨1, 2, 10, 20, 100, 0, [⟨4096, 7, 140, 3⟩, ⟨8192, 9, 180, 3⟩]⟩).1.length = 2 ∧
    ((record_migration_events
      ⟨1, 2, 10, 20, 100, 0, [⟨4096, 7, 140, 3⟩, ⟨8192, 9, 180, 3⟩]⟩).1.getD 1
        default).beginTimeStampGpu =
      ((record_migration_events
        ⟨1, 2, 10, 20, 100, 0, [⟨4096, 7, 140, 3⟩, ⟨8192, 9, 180, 3⟩]⟩).1.getD 0
          default).endTimeStampGpu :=
  ⟨(c2_deferred_migration_delivery
      ⟨1, 2, 10, 20, 100, 0, [⟨4096, 7, 140, 3⟩, ⟨8192, 9, 180, 3⟩]⟩).1,
    by
      have h := (c2_deferred_migration_delivery
        ⟨1, 2, 10, 20, 100, 0, [⟨4096, 7, 140, 3⟩, ⟨8192, 9, 180, 3⟩]⟩).2.2.1 1 (by decide)
      simpa using h⟩

/-!
Zero-initialisation of dispatched event entries (C6).  A local
UvmEventEntry is modelled as the fields record_gpu_fault_instance
populates plus a stale component standing for every byte of the
fixed-size record the code does not explicitly populate; a stack local
starts with arbitrary contents.
-/

/-- Representative enum values (header outside this repository). -/
def UvmEventTypeGpuFault : Nat := 1

/-- Representative value of the test event id for the HMM split
invalidate event. -/
def UvmEventTypeTestHmmSplitInvalidate : Nat := 63

/-- Byte-level model of a stack-allocated UvmEventEntry. -/
structure UvmEventEntryBytes where
  eventType : Nat
  gpuIndex : Nat
  faultType : Nat
  accessType : Nat
  clientType : Nat
  gpcId : Nat
  channelId : Nat
  clientId : Nat
  address : Nat
  timeStamp : Nat
  timeStampGpu : Nat
  batchId : Nat
  stale : Nat
deriving DecidableEq, Repr

/-- memset(&entry, 0, sizeof(entry)): every byte of the record zero. -/
def memset_zero_entry : UvmEventEntryBytes :=
  ⟨0, 0, 0, 0, 0, 0, 0, 0, 0, 0, 0, 0, 0⟩

/-- uvm_fault_buffer_entry_t fields consumed by
record_gpu_fault_instance. -/
structure uvm_fault_buffer_entry_t where
  fault_type : Nat
  fault_access_type : Nat
  client_type : Nat
  is_replayable : Bool
  gpc_id : Nat
  channel_id : Nat
  client_id : Nat
  fault_address : Nat
  timestamp : Nat
deriving DecidableEq, Repr

/-- record_gpu_fault_instance (uvm_tools.c:693-719): the entry handed to
uvm_tools_record_event.  The stack local starts as the arbitrary garbage
g, is zeroed by memset, then field-populated.  The hal-to-tools lookup
tables are passed as functions since their enum contents live outside this
repository. -/
def record_gpu_fault_instance_entry (_g : UvmEventEntryBytes)
    (fault_type_table access_type_table client_type_table : Nat → Nat)
    (gpu_id : Nat) (fault_entry : uvm_fault_buffer_entry_t)
    (batch_id timestamp : Nat) : UvmEventEntryBytes :=
  let entry := memset_zero_entry
  let entry := { entry with
    eventType := UvmEventTypeGpuFault
    gpuIndex := gpu_id
    faultType := fault_type_table fault_entry.fault_type
    accessType := access_type_table fault_entry.fault_access_type
    clientType := client_type_table fault_entry.client_type
    clientId := fault_entry.client_id
    address := fault_entry.fault_address
    timeStamp := timestamp
    timeStampGpu := fault_entry.timestamp
    batchId := batch_id }
  if fault_entry.is_replayable then
    { entry with gpcId := fault_entry.gpc_id }
  else
    { entry with channelId := fault_entry.channel_id }

/-- uvm_tools_test_hmm_split_invalidate (uvm_tools.c:1094-1105): the entry
handed to uvm_tools_record_event.  The stack local g is NOT zeroed — only
the test variant's eventType field is populated before dispatch. -/
def uvm_tools_test_hmm_split_invalidate_entry
    (g : UvmEventEntryBytes) : UvmEventEntryBytes :=
  { g with eventType := UvmEventTypeTestHmmSplitInvalidate }

/-- A concrete stack-garbage value. -/
def c6_stack_garbage : UvmEventEntryBytes :=
  ⟨9, 9, 9, 9, 9, 9, 9, 9, 9, 9, 9, 9, 42⟩

/-- C6 (code bug): record_gpu_fault_instance zero-initialises its entry,
so every unpopulated byte of the dispatched record is zero whatever the
stack held; uvm_tools_test_hmm_split_invalidate dispatches its entry
without the memset every other record site performs, so the record copied
into subscriber ring buffers carries the prior stack bytes in everything
but the eventType field — with garbage 42 in the unpopulated bytes the
dispatched record still holds 42. -/
theorem c6_split_invalidate_entry_not_zeroed :
    (∀ (g : UvmEventEntryBytes) (ftab atab ctab : Nat → Nat)
        (gpu : Nat) (fe : uvm_fault_buffer_entry_t) (bid ts : Nat),
      (record_gpu_fault_instance_entry g ftab atab ctab gpu fe bid ts).stale = 0) ∧
    (uvm_tools_test_hmm_split_invalidate_entry c6_stack_garbage).eventType =
      UvmEventTypeTestHmmSplitInvalidate ∧
    (uvm_tools_test_hmm_split_invalidate_entry c6_stack_garbage).stale = 42 ∧
    (uvm_tools_test_hmm_split_invalidate_entry c6_stack_garbage).address = 9 := by
  refine ⟨?_, rfl, rfl, rfl⟩
  intro g ftab atab ctab gpu fe bid ts
  unfold record_gpu_fault_instance_entry
  split <;> rfl

/-!
Subscription registry (C7): insert_event_tracker / remove_event_tracker
(uvm_tools.c:316-362) and the global per-index enabled count
g_tools_enabled_event_count.  A tracker (queue or counter subscriber) is
identified by a Nat id; the fixed function sp assigns each tracker to its
collector (va_space).  The per-tracker subscribed bit mask, the
per-collector subscriber lists and the global counters form the registry
state.
-/

/-- Registry state: per-tracker subscribed masks, per-collector
per-index subscriber lists (tracker ids, head insertion as list_add), and
the global enabled counts. -/
structure ToolsRegistry where
  subscribed : Nat → Nat
  lists : Nat → Nat → List Nat
  g_tools_enabled_event_count : Nat → Nat

/-- Registry at module load: no subscriptions, all counts zero. -/
def emptyRegistry : ToolsRegistry :=
  { subscribed := fun _ => 0, lists := fun _ _ => [], g_tools_enabled_event_count := fun _ => 0 }

/-- Body of the insertion loop of insert_event_tracker for index i: when
the bit is insertable, the global count of i is incremented and the
tracker node is list_add-ed (prepended) to the collector's list for i. -/
def insertLoopStep (cid tid : Nat) (insertable : Nat → Bool)
    (st : ToolsRegistry) (i : Nat) : ToolsRegistry :=
  if insertable i then
    { st with
      g_tools_enabled_event_count := fun j =>
        if j = i then st.g_tools_enabled_event_count j + 1
        else st.g_tools_enabled_event_count j,
      lists := fun c j => if c = cid ∧ j = i then tid :: st.lists c j else st.lists c j }
  else st

/-- insert_event_tracker (uvm_tools.c:316-339): insertable_lists is
computed from the pre-state subscribed mask, the loop runs over
i < list_count, and the subscribed mask is or-ed with the whole list
mask afterwards. -/
def insert_event_tracker (sp : Nat → Nat) (list_count tid list_mask : Nat)
    (st : ToolsRegistry) : ToolsRegistry :=
  let insertable := fun i => list_mask.testBit i && !((st.subscribed tid).testBit i)
  let st' := (List.range list_count).foldl (insertLoopStep (sp tid) tid insertable) st
  { st' with subscribed := fun u =>
      if u = tid then st'.subscribed u ||| list_mask else st'.subscribed u }

/-- Body of the removal loop of remove_event_tracker for index i: when the
bit is removable, the global count of i is decremented and the tracker
node is list_del-ed from the collector's list for i. -/
def removeLoopStep (cid tid : Nat) (removable : Nat → Bool)
    (st : ToolsRegistry) (i : Nat) : ToolsRegistry :=
  if removable i then
    { st with
      g_tools_enabled_event_count := fun j =>
        if j = i then st.g_tools_enabled_event_count j - 1
        else st.g_tools_enabled_event_count j,
      lists := fun c j => if c = cid ∧ j = i then (st.lists c j).erase tid else st.lists c j }
  else st

/-- remove_event_tracker (uvm_tools.c:341-362): removable_lists is
computed from the pre-state subscribed mask, the loop runs over
i < list_count, and the list mask's bits are cleared from the subscribed
mask afterwards. -/
def remove_event_tracker (sp : Nat → Nat) (list_count tid list_mask : Nat)
    (st : ToolsRegistry) : ToolsRegistry :=
  let removable := fun i => list_mask.testBit i && ((st.subscribed tid).testBit i)
  let st' := (List.range list_count).foldl (removeLoopStep (sp tid) tid removable) st
  { st' with subscribed := fun u =>
      if u = tid then Nat.ldiff (st'.subscribed u) list_mask else st'.subscribed u }

/-- One subscribe or unsubscribe call. -/
inductive TrackerOp where
  | subscribe (tid mask : Nat)
  | unsubscribe (tid mask : Nat)
deriving DecidableEq, Repr

/-- Apply one registry operation. -/
def applyOp (sp : Nat → Nat) (list_count : Nat) (st : ToolsRegistry) :
    TrackerOp → ToolsRegistry
  | .subscribe tid mask => insert_event_tracker sp list_count tid mask st
  | .unsubscribe tid mask => remove_event_tracker sp list_count tid mask st

/-- Run a sequence of subscribe/unsubscribe operations from module
load. -/
def runOps (sp : Nat → Nat) (list_count : Nat) (ops : List TrackerOp) : ToolsRegistry :=
  ops.foldl (applyOp sp list_count) emptyRegistry

/-- An operation's mask only names indices below list_count (the source
validates masks against the legal bit set before subscribing). -/
def TrackerOp.wf (list_count : Nat) : TrackerOp → Prop
  | .subscribe _ mask => mask < 2 ^ list_count
  | .unsubscribe _ mask => mask < 2 ^ list_count

/-- Effect of the insertion loop over a duplicate-free index list. -/
lemma insertLoop_spec (cid tid : Nat) (insertable : Nat → Bool) :
    ∀ (L : List Nat), L.Nodup → ∀ (st : ToolsRegistry),
      (∀ u, (L.foldl (insertLoopStep cid tid insertable) st).subscribed u =
        st.subscribed u) ∧
      (∀ j, (L.foldl (insertLoopStep cid tid insertable) st).g_tools_enabled_event_count j =
        st.g_tools_enabled_event_count j +
          (if insertable j ∧ j ∈ L then 1 else 0)) ∧
      (∀ c j, (L.foldl (insertLoopStep cid tid insertable) st).lists c j =
        if c = cid ∧ insertable j ∧ j ∈ L then tid :: st.lists c j else st.lists c j) := by
  intro L
  induction L with
  | nil => intro _ st; refine ⟨fun u => rfl, fun j => by simp, fun c j => by simp⟩
  | cons i L ihL =>
    intro hnd st
    have hi : i ∉ L := (List.nodup_cons.mp hnd).1
    obtain ⟨ih1, ih2, ih3⟩ := ihL (List.nodup_cons.mp hnd).2 (insertLoopStep cid tid insertable st i)
    refine ⟨?_, ?_, ?_⟩
    · intro u
      rw [List.foldl_cons, ih1]
      unfold insertLoopStep
      split <;> rfl
    · intro j
      rw [List.foldl_cons, ih2]
      unfold insertLoopStep
      by_cases hins : insertable i = true
      · rw [if_pos hins]
        by_cases hji : j = i
        · subst hji
          simp [hi, hins]
        · simp only [if_neg hji]
          by_cases hjL : j ∈ L
          · simp [hjL, List.mem_cons, hji]
          · have : ¬(j ∈ i :: L) := by simp [hji, hjL]
            simp [hjL, this]
      · rw [if_neg hins]
        have hins' : insertable i = false := by simpa using hins
        by_cases hji : j = i
        · subst hji
          simp [hins', hi]
        · by_cases hjL : j ∈ L
          · simp [hjL, List.mem_cons, hji]
          · have : ¬(j ∈ i :: L) := by simp [hji, hjL]
            simp [hjL, this]
    · intro c j
      rw [List.foldl_cons, ih3]
      unfold insertLoopStep
      by_cases hins : insertable i = true
      · rw [if_pos hins]
        by_cases hcc : c = cid
        · subst hcc
          by_cases hji : j = i
          · subst hji
            simp [hi, hins]
          · by_cases hjL : j ∈ L
            · simp [hjL, List.mem_cons, hji]
            · have : ¬(j ∈ i :: L) := by simp [hji, hjL]
              simp [hji, hjL, this]
        · simp [hcc]
      · rw [if_neg hins]
        have hins' : insertable i = false := by simpa using hins
        by_cases hji : j = i
        · subst hji
          simp [hins', hi]
        · by_cases hjL : j ∈ L
          · simp [hjL, List.mem_cons, hji]
          · have : ¬(j ∈ i :: L) := by simp [hji, hjL]
            simp [hjL, this]

/-- Effect of the removal loop over a duplicate-free index list. -/
lemma removeLoop_spec (cid tid : Nat) (removable : Nat → Bool) :
    ∀ (L : List Nat), L.Nodup → ∀ (st : ToolsRegistry),
      (∀ u, (L.foldl (removeLoopStep cid tid removable) st).subscribed u =
        st.subscribed u) ∧
      (∀ j, (L.foldl (removeLoopStep cid tid removable) st).g_tools_enabled_event_count j =
        st.g_tools_enabled_event_count j -
          (if removable j ∧ j ∈ L then 1 else 0)) ∧
      (∀ c j, (L.foldl (removeLoopStep cid tid removable) st).lists c j =
        if c = cid ∧ removable j ∧ j ∈ L then (st.lists c j).erase tid else st.lists c j) := by
  intro L
  induction L with
  | nil => intro _ st; refine ⟨fun u => rfl, fun j => by simp, fun c j => by simp⟩
  | cons i L ihL =>
    intro hnd st
    have hi : i ∉ L := (List.nodup_cons.mp hnd).1
    obtain ⟨ih1, ih2, ih3⟩ := ihL (List.nodup_cons.mp hnd).2 (removeLoopStep cid tid removable st i)
    refine ⟨?_, ?_, ?_⟩
    · intro u
      rw [List.foldl_cons, ih1]
      unfold removeLoopStep
      split <;> rfl
    · intro j
      rw [List.foldl_cons, ih2]
      unfold removeLoopStep
      by_cases hrem : removable i = true
      · rw [if_pos hrem]
        by_cases hji : j = i
        · subst hji
          simp [hi, hrem]
        · simp only [if_neg hji]
          by_cases hjL : j ∈ L
          · simp [hjL, List.mem_cons, hji]
          · have : ¬(j ∈ i :: L) := by simp [hji, hjL]
            simp [hjL, this]
      · rw [if_neg hrem]
        have hrem' : removable i = false := by simpa using hrem
        by_cases hji : j = i
        · subst hji
          simp [hrem', hi]
        · by_cases hjL : j ∈ L
          · simp [hjL, List.mem_cons, hji]
          · have : ¬(j ∈ i :: L) := by simp [hji, hjL]
            simp [hjL, this]
    · intro c j
      rw [List.foldl_cons, ih3]
      unfold removeLoopStep
      by_cases hrem : removable i = true
      · rw [if_pos hrem]
        by_cases hcc : c = cid
        · subst hcc
          by_cases hji : j = i
          · subst hji
            simp [hi, hrem]
          · by_cases hjL : j ∈ L
            · simp [hjL, List.mem_cons, hji]
            · have : ¬(j ∈ i :: L) := by simp [hji, hjL]
              simp [hji, hjL, this]
        · simp [hcc]
      · rw [if_neg hrem]
        have hrem' : removable i = false := by simpa using hrem
        by_cases hji : j = i
        · subst hji
          simp [hrem', hi]
        · by_cases hjL : j ∈ L
          · simp [hjL, List.mem_cons, hji]
          · have : ¬(j ∈ i :: L) := by simp [hji, hjL]
            simp [hjL, this]

/-- Registry well-formedness: the global count of every index equals the
total number of subscriber-list entries for that index over the NC
collectors; a tracker's subscribed bit is set exactly when the tracker
sits in its collector's list; lists are duplicate-free; every list entry
belongs to that collector; indices at or beyond list_count are unused. -/
def RegistryInv (sp : Nat → Nat) (NC LC : Nat) (st : ToolsRegistry) : Prop :=
  (∀ j, st.g_tools_enabled_event_count j =
    ∑ c ∈ Finset.range NC, (st.lists c j).length) ∧
  (∀ x j, (st.subscribed x).testBit j = true ↔ x ∈ st.lists (sp x) j) ∧
  (∀ c j, (st.lists c j).Nodup) ∧
  (∀ c j x, x ∈ st.lists c j → sp x = c) ∧
  (∀ c j, LC ≤ j → st.lists c j = [])

lemma emptyRegistry_inv (sp : Nat → Nat) (NC LC : Nat) :
    RegistryInv sp NC LC emptyRegistry := by
  refine ⟨fun j => by simp [emptyRegistry], fun x j => by simp [emptyRegistry],
    fun c j => by simp [emptyRegistry], fun c j x hx => by simp [emptyRegistry] at hx,
    fun c j _ => rfl⟩

/-- Pointwise description of insert_event_tracker. -/
lemma insert_event_tracker_spec (sp : Nat → Nat) (LC tid mask : Nat) (st : ToolsRegistry) :
    (∀ u, (insert_event_tracker sp LC tid mask st).subscribed u =
      if u = tid then st.subscribed u ||| mask else st.subscribed u) ∧
    (∀ j, (insert_event_tracker sp LC tid mask st).g_tools_enabled_event_count j =
      st.g_tools_enabled_event_count j +
        (if (mask.testBit j && !((st.subscribed tid).testBit j)) = true ∧ j < LC
         then 1 else 0)) ∧
    (∀ c j, (insert_event_tracker sp LC tid mask st).lists c j =
      if c = sp tid ∧ (mask.testBit j && !((st.subscribed tid).testBit j)) = true ∧ j < LC
      then tid :: st.lists c j else st.lists c j) := by
  obtain ⟨h1, h2, h3⟩ := insertLoop_spec (sp tid) tid
    (fun i => mask.testBit i && !((st.subscribed tid).testBit i))
    (List.range LC) (List.nodup_range LC) st
  refine ⟨?_, ?_, ?_⟩
  · intro u
    show (if u = tid then _ ||| mask else _) = _
    rw [h1 u]
  · intro j
    show (List.foldl _ st _).g_tools_enabled_event_count j = _
    rw [h2 j]
    simp [List.mem_range]
  · intro c j
    show (List.foldl _ st _).lists c j = _
    rw [h3 c j]
    simp [List.mem_range]

/-- Pointwise description of remove_event_tracker. -/
lemma remove_event_tracker_spec (sp : Nat → Nat) (LC tid mask : Nat) (st : ToolsRegistry) :
    (∀ u, (remove_event_tracker sp LC tid mask st).subscribed u =
      if u = tid then Nat.ldiff (st.subscribed u) mask else st.subscribed u) ∧
    (∀ j, (remove_event_tracker sp LC tid mask st).g_tools_enabled_event_count j =
      st.g_tools_enabled_event_count j -
        (if (mask.testBit j && (st.subscribed tid).testBit j) = true ∧ j < LC
         then 1 else 0)) ∧
    (∀ c j, (remove_event_tracker sp LC tid mask st).lists c j =
      if c = sp tid ∧ (mask.testBit j && (st.subscribed tid).testBit j) = true ∧ j < LC
      then (st.lists c j).erase tid else st.lists c j) := by
  obtain ⟨h1, h2, h3⟩ := removeLoop_spec (sp tid) tid
    (fun i => mask.testBit i && (st.subscribed tid).testBit i)
    (List.range LC) (List.nodup_range LC) st
  refine ⟨?_, ?_, ?_⟩
  · intro u
    show (if u = tid then Nat.ldiff _ mask else _) = _
    rw [h1 u]
  · intro j
    show (List.foldl _ st _).g_tools_enabled_event_count j = _
    rw [h2 j]
    simp [List.mem_range]
  · intro c j
    show (List.foldl _ st _).lists c j = _
    rw [h3 c j]
    simp [List.mem_range]

lemma insert_preserves_inv (sp : Nat → Nat) (NC LC tid mask : Nat) (st : ToolsRegistry)
    (hsp : ∀ u, sp u < NC) (hmask : mask < 2 ^ LC)
    (hinv : RegistryInv sp NC LC st) :
    RegistryInv sp NC LC (insert_event_tracker sp LC tid mask st) := by
  obtain ⟨j1, j2, j3, j4, j5⟩ := hinv
  obtain ⟨s1, s2, s3⟩ := insert_event_tracker_spec sp LC tid mask st
  have hmaskhi : ∀ j, LC ≤ j → mask.testBit j = false := by
    intro j hj
    exact Nat.testBit_lt_two_pow (lt_of_lt_of_le hmask (Nat.pow_le_pow_right (by omega) hj))
  refine ⟨?_, ?_, ?_, ?_, ?_⟩
  · intro j
    rw [s2 j]
    have hlen : ∀ c, ((insert_event_tracker sp LC tid mask st).lists c j).length =
        (st.lists c j).length +
          (if c = sp tid ∧ (mask.testBit j && !((st.subscribed tid).testBit j)) = true ∧ j < LC
           then 1 else 0) := by
      intro c
      rw [s3 c j]
      split
      · rename_i h
        simp [h]
      · rename_i h
        simp [h]
    rw [j1 j, Finset.sum_congr rfl (fun c _ => hlen c), Finset.sum_add_distrib]
    congr 1
    by_cases hcnd : (mask.testBit j && !((st.subscribed tid).testBit j)) = true ∧ j < LC
    · rw [if_pos hcnd]
      have hterm : ∀ c,
          (if c = sp tid ∧ (mask.testBit j && !((st.subscribed tid).testBit j)) = true ∧ j < LC
           then 1 else 0) = (if c = sp tid then 1 else 0) := by
        intro c
        by_cases hc : c = sp tid
        · simp [hc, hcnd]
        · simp [hc]
      rw [Finset.sum_congr rfl (fun c _ => hterm c),
        Finset.sum_ite_eq' (Finset.range NC) (sp tid) (fun _ => 1),
        if_pos (Finset.mem_range.mpr (hsp tid))]
    · rw [if_neg hcnd]
      rw [Finset.sum_congr rfl (fun c _ => if_neg (fun hh => hcnd hh.2))]
      simp
  · intro x j
    rw [s1 x, s3 (sp x) j]
    by_cases hx : x = tid
    · subst hx
      rw [if_pos rfl]
      rw [Nat.testBit_or]
      by_cases hjlt : j < LC
      · by_cases hold : (st.subscribed x).testBit j = true
        · have hcond : ¬(sp x = sp x ∧
              (mask.testBit j && !((st.subscribed x).testBit j)) = true ∧ j < LC) := by
            intro ⟨_, hc, _⟩
            rw [hold] at hc
            simp at hc
          rw [if_neg hcond, hold]
          simp only [Bool.true_or, true_iff]
          exact (j2 x j).mp hold
        · have hold' : (st.subscribed x).testBit j = false := by simpa using hold
          by_cases hmb : mask.testBit j = true
          · have hcond : (mask.testBit j && !((st.subscribed x).testBit j)) = true ∧ j < LC := by
              rw [hmb, hold']
              exact ⟨rfl, hjlt⟩
            rw [if_pos ⟨rfl, hcond⟩, hold', hmb]
            simp
          · have hmb' : mask.testBit j = false := by simpa using hmb
            have hcond : ¬(sp x = sp x ∧
                (mask.testBit j && !((st.subscribed x).testBit j)) = true ∧ j < LC) := by
              intro ⟨_, hc, _⟩
              rw [hmb'] at hc
              simp at hc
            rw [if_neg hcond, hmb']
            simp only [Bool.or_false]
            exact j2 x j
      · have hmb' : mask.testBit j = false := hmaskhi j (by omega)
        have hcond : ¬(sp x = sp x ∧
            (mask.testBit j && !((st.subscribed x).testBit j)) = true ∧ j < LC) :=
          fun hh => hjlt hh.2.2
        rw [if_neg hcond, hmb']
        simp only [Bool.or_false]
        exact j2 x j
    · rw [if_neg hx]
      split
      · rename_i h
        rw [List.mem_cons]
        constructor
        · intro hb
          exact Or.inr ((j2 x j).mp hb)
        · intro hb
          rcases hb with hb | hb
          · exact absurd hb hx
          · exact (j2 x j).mpr hb
      · exact j2 x j
  · intro c j
    rw [s3 c j]
    split
    · rename_i h
      obtain ⟨hc, hcnd, hjlt⟩ := h
      refine List.nodup_cons.mpr ⟨?_, j3 c j⟩
      rw [Bool.and_eq_true] at hcnd
      have hold : (st.subscribed tid).testBit j = false := by
        simpa using hcnd.2
      intro hmem
      subst hc
      exact absurd ((j2 tid j).mpr hmem) (by simp [hold])
    · exact j3 c j
  · intro c j x hx
    rw [s3 c j] at hx
    split at hx
    · rename_i h
      rw [List.mem_cons] at hx
      rcases hx with hx | hx
      · subst hx
        exact h.1.symm
      · exact j4 c j x hx
    · exact j4 c j x hx
  · intro c j hj
    rw [s3 c j]
    rw [if_neg (fun hh => by omega)]
    exact j5 c j hj

lemma remove_preserves_inv (sp : Nat → Nat) (NC LC tid mask : Nat) (st : ToolsRegistry)
    (hsp : ∀ u, sp u < NC)
    (hinv : RegistryInv sp NC LC st) :
    RegistryInv sp NC LC (remove_event_tracker sp LC tid mask st) := by
  obtain ⟨j1, j2, j3, j4, j5⟩ := hinv
  obtain ⟨s1, s2, s3⟩ := remove_event_tracker_spec sp LC tid mask st
  refine ⟨?_, ?_, ?_, ?_, ?_⟩
  · intro j
    rw [s2 j]
    by_cases hcnd : (mask.testBit j && (st.subscribed tid).testBit j) = true ∧ j < LC
    · rw [if_pos hcnd]
      have hbit : (st.subscribed tid).testBit j = true := by
        have := hcnd.1
        rw [Bool.and_eq_true] at this
        exact this.2
      have hmem : tid ∈ st.lists (sp tid) j := (j2 tid j).mp hbit
      have hlen : ∀ c, ((remove_event_tracker sp LC tid mask st).lists c j).length =
          if c = sp tid then (st.lists c j).length - 1 else (st.lists c j).length := by
        intro c
        rw [s3 c j]
        by_cases hc : c = sp tid
        · rw [if_pos ⟨hc, hcnd⟩, if_pos hc]
          subst hc
          exact List.length_erase_of_mem hmem
        · rw [if_neg (fun hh => hc hh.1), if_neg hc]
      have hlen' : ∀ c, (st.lists c j).length =
          ((remove_event_tracker sp LC tid mask st).lists c j).length +
            (if c = sp tid then 1 else 0) := by
        intro c
        rw [hlen c]
        by_cases hc : c = sp tid
        · subst hc
          rw [if_pos rfl, if_pos rfl]
          have := List.length_pos_of_mem hmem
          omega
        · simp [hc]
      have hsum : ∑ c ∈ Finset.range NC, (st.lists c j).length =
          (∑ c ∈ Finset.range NC,
            ((remove_event_tracker sp LC tid mask st).lists c j).length) + 1 := by
        rw [Finset.sum_congr rfl (fun c _ => hlen' c), Finset.sum_add_distrib,
          Finset.sum_ite_eq' (Finset.range NC) (sp tid) (fun _ => 1),
          if_pos (Finset.mem_range.mpr (hsp tid))]
      rw [j1 j, hsum]
      omega
    · rw [if_neg hcnd, j1 j]
      have hall : ∀ c, (remove_event_tracker sp LC tid mask st).lists c j = st.lists c j := by
        intro c
        rw [s3 c j, if_neg (fun hh => hcnd hh.2)]
      rw [Finset.sum_congr rfl (fun c _ => congrArg List.length (hall c))]
      omega
  · intro x j
    rw [s1 x, s3 (sp x) j]
    by_cases hx : x = tid
    · subst hx
      rw [if_pos rfl]
      rw [Nat.testBit_ldiff]
      by_cases hbit : (st.subscribed x).testBit j = true
      · have hjlt : j < LC := by
          by_contra hge
          have := (j2 x j).mp hbit
          rw [j5 (sp x) j (by omega)] at this
          simp at this
        by_cases hmb : mask.testBit j = true
        · rw [if_pos ⟨rfl, by rw [Bool.and_eq_true]; exact ⟨hmb, hbit⟩, hjlt⟩]
          rw [hbit, hmb]
          simp only [Bool.not_true, Bool.and_false, Bool.false_eq_true, false_iff]
          exact (j3 (sp x) j).not_mem_erase
        · have hmb' : mask.testBit j = false := by simpa using hmb
          rw [if_neg (fun hh => by
            have := hh.2.1
            rw [Bool.and_eq_true] at this
            rw [hmb'] at this
            simp at this)]
          rw [hbit, hmb']
          simpa using (j2 x j).mp hbit
      · have hbit' : (st.subscribed x).testBit j = false := by simpa using hbit
        rw [if_neg (fun hh => by
          have := hh.2.1
          rw [Bool.and_eq_true] at this
          rw [hbit'] at this
          simp at this)]
        rw [hbit']
        simp only [Bool.false_and, Bool.false_eq_true, false_iff]
        intro hmem
        exact absurd ((j2 x j).mpr hmem) (by simp [hbit'])
    · rw [if_neg hx]
      split
      · rename_i h
        constructor
        · intro hb
          exact (List.mem_erase_of_ne hx).mpr ((j2 x j).mp hb)
        · intro hb
          exact (j2 x j).mpr ((List.mem_erase_of_ne hx).mp hb)
      · exact j2 x j
  · intro c j
    rw [s3 c j]
    split
    · exact (j3 c j).erase tid
    · exact j3 c j
  · intro c j x hx
    rw [s3 c j] at hx
    split at hx
    · exact j4 c j x (List.mem_of_mem_erase hx)
    · exact j4 c j x hx
  · intro c j hj
    rw [s3 c j]
    rw [if_neg (fun hh => by omega)]
    exact j5 c j hj

/-- The registry invariant holds after any operation sequence whose masks
are within the legal bit set. -/
lemma runOps_inv (sp : Nat → Nat) (NC LC : Nat) (hsp : ∀ u, sp u < NC)
    (ops : List TrackerOp) (hwf : ∀ op ∈ ops, op.wf LC) :
    RegistryInv sp NC LC (runOps sp LC ops) := by
  suffices h : ∀ (l : List TrackerOp), (∀ op ∈ l, op.wf LC) →
      ∀ st, RegistryInv sp NC LC st →
      RegistryInv sp NC LC (l.foldl (applyOp sp LC) st) by
    exact h ops hwf emptyRegistry (emptyRegistry_inv sp NC LC)
  intro l
  induction l with
  | nil => intro _ st hst; exact hst
  | cons op rest ih =>
    intro hwf' st hst
    rw [List.foldl_cons]
    refine ih (fun o ho => hwf' o (by simp [ho])) _ ?_
    match op with
    | .subscribe tid mask =>
      have hm : TrackerOp.wf LC (.subscribe tid mask) := hwf' _ (List.mem_cons_self _ _)
      exact insert_preserves_inv sp NC LC tid mask st hsp hm hst
    | .unsubscribe tid mask =>
      exact remove_preserves_inv sp NC LC tid mask st hsp hst

/-- Two queue trackers attached to the same collector, both subscribing to
index 1 (mask 2): the global enabled count for index 1 becomes 2, yet only
one collector has a non-empty list. -/
theorem c7_counterexample_two_trackers_one_collector :
    (runOps (fun _ => 0) 2
      [.subscribe 0 2, .subscribe 1 2]).g_tools_enabled_event_count 1 = 2 ∧
    ((Finset.range 4).filter
      (fun c => (runOps (fun _ => 0) 2
        [.subscribe 0 2, .subscribe 1 2]).lists c 1 ≠ [])).card = 1 ∧
    (2 : Nat) ≠ 1 := by
  refine ⟨by decide, by decide, by decide⟩

/-- C7 amended: after any sequence of subscribe/unsubscribe operations
with legal masks, the global per-index enabled count equals the total
number of subscriber-list entries for that index summed over all
collectors (not the number of collectors with a non-empty list); in
particular the count is zero exactly when no collector has a subscriber
for that index. -/
theorem c7_enabled_count_totals_subscribers :
    ∀ (sp : Nat → Nat) (NC LC : Nat) (ops : List TrackerOp),
      (∀ u, sp u < NC) → (∀ op ∈ ops, op.wf LC) →
      ∀ j, (runOps sp LC ops).g_tools_enabled_event_count j =
          (∑ c ∈ Finset.range NC, ((runOps sp LC ops).lists c j).length) ∧
        ((runOps sp LC ops).g_tools_enabled_event_count j = 0 ↔
          ∀ c, (runOps sp LC ops).lists c j = []) := by
  intro sp NC LC ops hsp hwf j
  obtain ⟨j1, _, _, j4, _⟩ := runOps_inv sp NC LC hsp ops hwf
  refine ⟨j1 j, ?_⟩
  rw [j1 j]
  constructor
  · intro hz c
    by_cases hc : c < NC
    · have := Finset.sum_eq_zero_iff.mp hz c (Finset.mem_range.mpr hc)
      exact List.length_eq_zero.mp this
    · rcases hl : (runOps sp LC ops).lists c j with _ | ⟨x, l⟩
      · rfl
      · have hxc : sp x = c := j4 c j x (by rw [hl]; simp)
        exact absurd (hsp x) (by omega)
  · intro hall
    refine Finset.sum_eq_zero (fun c _ => ?_)
    rw [hall c]
    rfl

/-- Witness for the amended C7 at the two-tracker scenario. -/
theorem c7_enabled_count_totals_subscribers_witness :
    ((∀ u : Nat, (fun (_ : Nat) => 0) u < 1) ∧
      (∀ op ∈ ([.subscribe 0 2, .subscribe 1 2] : List TrackerOp), op.wf 2)) ∧
    ((runOps (fun _ => 0) 2 [.subscribe 0 2, .subscribe 1 2]).g_tools_enabled_event_count 1 =
        (∑ c ∈ Finset.range 1,
          ((runOps (fun _ => 0) 2 [.subscribe 0 2, .subscribe 1 2]).lists c 1).length) ∧
      ((runOps (fun _ => 0) 2
          [.subscribe 0 2, .subscribe 1 2]).g_tools_enabled_event_count 1 = 0 ↔
        ∀ c, (runOps (fun _ => 0) 2 [.subscribe 0 2, .subscribe 1 2]).lists c 1 = [])) :=
  ⟨⟨fun _ => Nat.zero_lt_one, by intro op hop; fin_cases hop <;> exact (by decide : (2 : Nat) < 2 ^ 2)⟩,
    c7_enabled_count_totals_subscribers (fun _ => 0) 1 2 [.subscribe 0 2, .subscribe 1 2]
      (fun _ => Nat.zero_lt_one) (by intro op hop; fin_cases hop <;> exact (by decide : (2 : Nat) < 2 ^ 2)) 1⟩

/-!
Producer callback registration (C9): tools_update_perf_events_callbacks
and tools_update_status (uvm_tools.c:1570-1639), and the detach path of
destroy_event_tracker (uvm_tools.c:372-431).  Registration outcomes of
uvm_perf_register_event_callback_locked are supplied as oracle arguments
rf and rm; unregistration cannot fail.
-/

/-- Representative enum values for the event types and counters consulted
by the callback-needed predicates (headers outside this repository; only
distinctness within each enum matters). -/
def UvmEventTypeCpuFault : Nat := 4

/-- Representative UvmEventTypeReadDuplicate value. -/
def UvmEventTypeReadDuplicate : Nat := 5

/-- Representative UvmCounterNameGpuPageFaultCount value. -/
def UvmCounterNameGpuPageFaultCount : Nat := 4

/-- Representative UvmCounterNameBytesXferDtH value. -/
def UvmCounterNameBytesXferDtH : Nat := 5

/-- Representative UvmCounterNameBytesXferHtD value. -/
def UvmCounterNameBytesXferHtD : Nat := 6

/-- Representative UVM_TOTAL_COUNTERS. -/
def UVM_TOTAL_COUNTERS : Nat := 8

/-- Representative UvmEventNumTypesAll. -/
def UvmEventNumTypesAll : Nat := 64

/-- NV_STATUS, reduced to the outcomes relevant here. -/
inductive NV_STATUS where
  | NV_OK
  | NV_ERR_NO_MEMORY
deriving DecidableEq, Repr

/-- The tracing fields of one va_space: per-event-type queue subscriber
lists, per-counter subscriber lists, the enabled flag and membership in
the global g_tools_va_space_list (kept in sync with enabled). -/
structure va_space_tools_state where
  queues : Nat → List Nat
  counters : Nat → List Nat
  enabled : Bool
  in_va_space_list : Bool

/-- tools_is_event_enabled (uvm_tools.c:554-560). -/
def tools_is_event_enabled (v : va_space_tools_state) (ev : Nat) : Bool :=
  !(v.queues ev).isEmpty

/-- tools_is_counter_enabled (uvm_tools.c:546-552). -/
def tools_is_counter_enabled (v : va_space_tools_state) (counter : Nat) : Bool :=
  !(v.counters counter).isEmpty

/-- tools_is_fault_callback_needed (uvm_tools.c:590-596). -/
def tools_is_fault_callback_needed (v : va_space_tools_state) : Bool :=
  tools_is_event_enabled v UvmEventTypeCpuFault ||
  tools_is_event_enabled v UvmEventTypeGpuFault ||
  tools_is_counter_enabled v UvmCounterNameCpuPageFaultCount ||
  tools_is_counter_enabled v UvmCounterNameGpuPageFaultCount

/-- tools_is_migration_callback_needed (uvm_tools.c:598-604). -/
def tools_is_migration_callback_needed (v : va_space_tools_state) : Bool :=
  tools_is_event_enabled v UvmEventTypeMigration ||
  tools_is_event_enabled v UvmEventTypeReadDuplicate ||
  tools_is_counter_enabled v UvmCounterNameBytesXferDtH ||
  tools_is_counter_enabled v UvmCounterNameBytesXferHtD

/-- tools_are_enabled (uvm_tools.c:573-588). -/
def tools_are_enabled (v : va_space_tools_state) : Bool :=
  ((List.range UVM_TOTAL_COUNTERS).any fun i => tools_is_counter_enabled v i) ||
  ((List.range UvmEventNumTypesAll).any fun i => tools_is_event_enabled v i)

/-- Registration state of the two producer callbacks. -/
structure perf_events_state where
  fault_cb_registered : Bool
  migration_cb_registered : Bool
deriving DecidableEq, Repr

/-- tools_update_perf_events_callbacks (uvm_tools.c:1570-1614): the fault
callback is registered check-then-register when needed (propagating a
registration failure immediately), unregistered when no longer needed;
then the same for the migration callback. -/
def tools_update_perf_events_callbacks (rf rm : NV_STATUS)
    (v : va_space_tools_state) (p : perf_events_state) : NV_STATUS × perf_events_state :=
  let step1 : NV_STATUS × perf_events_state :=
    if tools_is_fault_callback_needed v then
      if !p.fault_cb_registered then
        match rf with
        | .NV_OK => (.NV_OK, { p with fault_cb_registered := true })
        | e => (e, p)
      else (.NV_OK, p)
    else
      if p.fault_cb_registered then (.NV_OK, { p with fault_cb_registered := false })
      else (.NV_OK, p)
  match step1 with
  | (.NV_OK, p1) =>
    if tools_is_migration_callback_needed v then
      if !p1.migration_cb_registered then
        match rm with
        | .NV_OK => (.NV_OK, { p1 with migration_cb_registered := true })
        | e => (e, p1)
      else (.NV_OK, p1)
    else
      if p1.migration_cb_registered then (.NV_OK, { p1 with migration_cb_registered := false })
      else (.NV_OK, p1)
  | (e, p1) => (e, p1)

/-- tools_update_status (uvm_tools.c:1616-1639): updates the callbacks,
returning early on failure with the va_space state untouched; otherwise
recomputes the enabled flag and the global-list membership. -/
def tools_update_status (rf rm : NV_STATUS) (v : va_space_tools_state)
    (p : perf_events_state) : NV_STATUS × va_space_tools_state × perf_events_state :=
  match tools_update_perf_events_callbacks rf rm v p with
  | (.NV_OK, p') =>
    let should_be_enabled := tools_are_enabled v
    if should_be_enabled != v.enabled then
      (.NV_OK,
        { v with enabled := should_be_enabled, in_va_space_list := should_be_enabled }, p')
    else (.NV_OK, v, p')
  | (e, p') => (e, v, p')

/-- Status tools_update_status yields on the detach path of
destroy_event_tracker, where the source asserts it equals NV_OK and
returns nothing to the caller. -/
def destroy_event_tracker_status (rf rm : NV_STATUS) (v : va_space_tools_state)
    (p : perf_events_state) : NV_STATUS :=
  (tools_update_status rf rm v p).1

/-- A va_space with one tracker subscribed to both the CPU-fault event and
the migration event, so attach must register both callbacks. -/
def c9_probe_va : va_space_tools_state :=
  { queues := fun e => if e = UvmEventTypeCpuFault ∨ e = UvmEventTypeMigration then [0] else []
    counters := fun _ => []
    enabled := false
    in_va_space_list := false }

/-- Counterexample to C9 as stated: when the fault callback registers
successfully and the migration callback registration then fails, the
update returns the error but the fault registration persists — the
registration state is NOT left unchanged by a callback-registration
failure. -/
theorem c9_counterexample_partial_registration :
    (tools_update_perf_events_callbacks .NV_OK .NV_ERR_NO_MEMORY c9_probe_va
      ⟨false, false⟩).1 = .NV_ERR_NO_MEMORY ∧
    (tools_update_perf_events_callbacks .NV_OK .NV_ERR_NO_MEMORY c9_probe_va
      ⟨false, false⟩).2.fault_cb_registered = true ∧
    (⟨false, false⟩ : perf_events_state).fault_cb_registered = false := by
  refine ⟨by decide, by decide, by decide⟩

/-- C9 amended: a callback-registration failure is returned to the caller
(the attach path) with the enabled flag and global-list membership
untouched and without recording the failing registration — though a
registration that succeeded earlier in the same update persists; and on
the detach path, where every still-needed callback is already registered,
the update never fails, so detach returns no registration error. -/
theorem c9_registration_failure_semantics :
    (∀ (rf rm : NV_STATUS) (v : va_space_tools_state) (p : perf_events_state),
      (tools_update_status rf rm v p).1 ≠ .NV_OK →
      (tools_update_status rf rm v p).2.1 = v ∧
      (tools_update_status rf rm v p).1 = (tools_update_perf_events_callbacks rf rm v p).1) ∧
    (∀ (rf rm : NV_STATUS) (v : va_space_tools_state) (p : perf_events_state),
      (tools_update_perf_events_callbacks rf rm v p).1 ≠ .NV_OK →
      (tools_update_perf_events_callbacks rf rm v p).2.migration_cb_registered =
        p.migration_cb_registered) ∧
    (∀ (rf rm : NV_STATUS) (v : va_space_tools_state) (p : perf_events_state),
      rf ≠ .NV_OK →
      tools_is_fault_callback_needed v = true →
      p.fault_cb_registered = false →
      tools_update_perf_events_callbacks rf rm v p = (rf, p)) ∧
    (∀ (rf rm : NV_STATUS) (v : va_space_tools_state) (p : perf_events_state),
      (tools_is_fault_callback_needed v = true → p.fault_cb_registered = true) →
      (tools_is_migration_callback_needed v = true → p.migration_cb_registered = true) →
      destroy_event_tracker_status rf rm v p = .NV_OK) := by
  refine ⟨?_, ?_, ?_, ?_⟩
  · intro rf rm v p h
    rcases hcb : tools_update_perf_events_callbacks rf rm v p with ⟨s, p'⟩
    cases s with
    | NV_OK =>
      exfalso
      apply h
      simp only [tools_update_status, hcb]
      split <;> rfl
    | NV_ERR_NO_MEMORY =>
      refine ⟨?_, ?_⟩ <;> simp only [tools_update_status, hcb]
  · intro rf rm v p h
    unfold tools_update_perf_events_callbacks at *
    cases hf : tools_is_fault_callback_needed v <;>
      cases hfr : p.fault_cb_registered <;>
      cases hm : tools_is_migration_callback_needed v <;>
      cases hmr : p.migration_cb_registered <;>
      cases rf <;> cases rm <;> simp_all
  · intro rf rm v p hrf hf hfr
    unfold tools_update_perf_events_callbacks
    rw [hf, hfr]
    cases rf with
    | NV_OK => exact absurd rfl hrf
    | NV_ERR_NO_MEMORY => rfl
  · intro rf rm v p h1 h2
    unfold destroy_event_tracker_status tools_update_status tools_update_perf_events_callbacks
    cases hf : tools_is_fault_callback_needed v <;>
      cases hm : tools_is_migration_callback_needed v <;>
      cases hfr : p.fault_cb_registered <;>
      cases hmr : p.migration_cb_registered <;>
      simp_all <;> split <;> rfl

/-- Witness for the amended C9: a failing migration registration on the
probe va_space propagates the error and leaves the enable state
untouched, and the detach path on a consistent state returns NV_OK. -/
theorem c9_registration_failure_semantics_witness :
    ((tools_update_status .NV_OK .NV_ERR_NO_MEMORY c9_probe_va ⟨false, false⟩).1 ≠ .NV_OK ∧
      (tools_update_status .NV_OK .NV_ERR_NO_MEMORY c9_probe_va ⟨false, false⟩).2.1 =
        c9_probe_va) ∧
    destroy_event_tracker_status .NV_ERR_NO_MEMORY .NV_ERR_NO_MEMORY c9_probe_va
      ⟨true, true⟩ = .NV_OK :=
  ⟨⟨by decide,
    (c9_registration_failure_semantics.1 .NV_OK .NV_ERR_NO_MEMORY c9_probe_va
      ⟨false, false⟩ (by decide)).1⟩,
    c9_registration_failure_semantics.2.2.2 .NV_ERR_NO_MEMORY .NV_ERR_NO_MEMORY c9_probe_va
      ⟨true, true⟩ (fun _ => rfl) (fun _ => rfl)⟩

/-!
Flush of the deferred pipeline (C3): the global pending-channel list
g_tools_channel_list, tools_schedule_completed_events
(uvm_tools.c:1245-1282) and uvm_tools_flush_events
(uvm_tools.c:1889-1894).  The model is the sequential idealisation of the
spec's guarantee: forcing hardware progress on a channel completes all its
pending deferred records, each completion callback removing one channel
reference and scheduling the record on the background worker queue, and
nv_kthread_q_flush drains everything scheduled so far.  Channels and
records added between the snapshot and the progress loop are passed in as
mid (append at tail, as add_pending_event_for_channel does for a new
channel). -/

/-- Per-channel tools state: the channel identity, its
tools.pending_event_count reference count and its pending deferred
records. -/
structure channel_tools_t where
  cid : Nat
  pending_event_count : Nat
  recs : List Nat
deriving DecidableEq, Repr

/-- Global deferred-pipeline state: the pending-channel list in list
order, the background worker queue and the records the worker has
delivered. -/
structure ToolsChannelState where
  channels : List channel_tools_t
  worker : List Nat
  delivered : List Nat
deriving DecidableEq, Repr

/-- Retain loop of tools_schedule_completed_events: every entry currently
in the list gets one extra reference. -/
def retainAll (cs : List channel_tools_t) : List channel_tools_t :=
  cs.map fun c => { c with pending_event_count := c.pending_event_count + 1 }

/-- uvm_channel_update_progress_all on one channel, idealised: every
pending record completes; each completion decrements the channel's
reference count and hands the record to the worker queue. -/
def uvm_channel_update_progress_all (c : channel_tools_t) : channel_tools_t × List Nat :=
  ({ c with pending_event_count := c.pending_event_count - c.recs.length, recs := [] }, c.recs)

/-- Progress loop of tools_schedule_completed_events: exactly the first
channel_count entries (the snapshot) are forced; entries beyond are not
touched. -/
def progressFirst : Nat → List channel_tools_t → List channel_tools_t × List Nat
  | 0, cs => (cs, [])
  | _ + 1, [] => ([], [])
  | n + 1, c :: cs =>
    let r := uvm_channel_update_progress_all c
    let rest := progressFirst n cs
    (r.1 :: rest.1, r.2 ++ rest.2)

/-- Release loop of tools_schedule_completed_events: the first
channel_count entries each lose the reference retained at the start
(remove_pending_event_for_channel), leaving the list at zero. -/
def releaseFirst : Nat → List channel_tools_t → List channel_tools_t
  | 0, cs => cs
  | _ + 1, [] => []
  | n + 1, c :: cs =>
    if c.pending_event_count - 1 = 0 then releaseFirst n cs
    else { c with pending_event_count := c.pending_event_count - 1 } :: releaseFirst n cs

/-- tools_schedule_completed_events (uvm_tools.c:1245-1282). -/
def tools_schedule_completed_events (mid : List channel_tools_t)
    (st : ToolsChannelState) : ToolsChannelState :=
  let channel_count := st.channels.length
  if channel_count = 0 then
    { st with channels := st.channels ++ mid }
  else
    let snap := retainAll st.channels ++ mid
    let pr := progressFirst channel_count snap
    let rel := releaseFirst channel_count pr.1
    { channels := rel, worker := st.worker ++ pr.2, delivered := st.delivered }

/-- nv_kthread_q_flush on the tools worker queue: everything scheduled so
far is delivered. -/
def nv_kthread_q_flush (st : ToolsChannelState) : ToolsChannelState :=
  { st with worker := [], delivered := st.delivered ++ st.worker }

/-- uvm_tools_flush_events (uvm_tools.c:1889-1894). -/
def uvm_tools_flush_events (mid : List channel_tools_t)
    (st : ToolsChannelState) : ToolsChannelState :=
  nv_kthread_q_flush (tools_schedule_completed_events mid st)

/-- Forcing progress over the retained snapshot: snapshot channels drain
completely (keeping only the flush's reference), later entries are
untouched, and exactly the snapshot's pending records move out. -/
lemma progressFirst_spec :
    ∀ (cs mid : List channel_tools_t),
      (∀ c ∈ cs, c.pending_event_count = c.recs.length) →
      progressFirst cs.length (retainAll cs ++ mid) =
        (cs.map (fun c => { c with pending_event_count := 1, recs := [] }) ++ mid,
          cs.flatMap fun c => c.recs) := by
  intro cs
  induction cs with
  | nil => intro mid _; rfl
  | cons c cs ih =>
    intro mid hwf
    have hc : c.pending_event_count = c.recs.length := hwf c (by simp)
    have ih' := ih mid (fun x hx => hwf x (by simp [hx]))
    show progressFirst (cs.length + 1) (retainAll (c :: cs) ++ mid) = _
    have hretain : retainAll (c :: cs) ++ mid =
        { c with pending_event_count := c.pending_event_count + 1 } ::
          (retainAll cs ++ mid) := by
      simp [retainAll]
    rw [hretain]
    show ((uvm_channel_update_progress_all
        { c with pending_event_count := c.pending_event_count + 1 }).1 ::
          (progressFirst cs.length (retainAll cs ++ mid)).1,
        (uvm_channel_update_progress_all
          { c with pending_event_count := c.pending_event_count + 1 }).2 ++
          (progressFirst cs.length (retainAll cs ++ mid)).2) = _
    rw [ih']
    unfold uvm_channel_update_progress_all
    simp [hc]

/-- Releasing the snapshot's retained references removes exactly the
snapshot entries (now at count zero) from the list. -/
lemma releaseFirst_spec :
    ∀ (cs mid : List channel_tools_t),
      releaseFirst cs.length
        (cs.map (fun c => { c with pending_event_count := 1, recs := [] }) ++ mid) = mid := by
  intro cs
  induction cs with
  | nil => intro mid; rfl
  | cons c cs ih =>
    intro mid
    show releaseFirst (cs.length + 1)
      ({ c with pending_event_count := 1, recs := [] } ::
        (cs.map (fun c => { c with pending_event_count := 1, recs := [] }) ++ mid)) = mid
    unfold releaseFirst
    rw [if_pos (by simp)]
    exact ih mid

/-- C3: a flush snapshots the pending-channel list, retains each snapshot
entry, forces progress on exactly those channels, releases exactly the
retained references, and then drains the worker queue — so every deferred
record pending at flush start (on a snapshot channel, or already handed to
the worker) is delivered by the time flush returns, the snapshot entries
are gone from the list, and channels added after the snapshot are neither
forced nor covered: their records are not delivered by this flush. -/
theorem c3_flush_covers_snapshot_only :
    ∀ (st : ToolsChannelState) (mid : List channel_tools_t),
      (∀ c ∈ st.channels, c.pending_event_count = c.recs.length) →
      (uvm_tools_flush_events mid st).worker = [] ∧
      (∀ r, r ∈ st.channels.flatMap (fun c => c.recs) →
        r ∈ (uvm_tools_flush_events mid st).delivered) ∧
      (∀ r, r ∈ st.worker → r ∈ (uvm_tools_flush_events mid st).delivered) ∧
      (st.channels.length ≠ 0 →
        (uvm_tools_flush_events mid st).channels = mid ∧
        (uvm_tools_flush_events mid st).delivered =
          st.delivered ++ (st.worker ++ st.channels.flatMap (fun c => c.recs))) ∧
      (∀ r, r ∈ mid.flatMap (fun c => c.recs) →
        r ∉ st.delivered → r ∉ st.worker → r ∉ st.channels.flatMap (fun c => c.recs) →
        r ∉ (uvm_tools_flush_events mid st).delivered) := by
  intro st mid hwf
  by_cases hn : st.channels.length = 0
  · have hch : st.channels = [] := List.length_eq_zero.mp hn
    have hfl : uvm_tools_flush_events mid st =
        { channels := st.channels ++ mid, worker := [],
          delivered := st.delivered ++ st.worker } := by
      unfold uvm_tools_flush_events tools_schedule_completed_events nv_kthread_q_flush
      rw [if_pos hn]
    rw [hfl]
    refine ⟨rfl, ?_, ?_, fun h0 => absurd hn h0, ?_⟩
    · intro r hr
      rw [hch] at hr
      simp at hr
    · intro r hr
      simp [hr]
    · intro r _ hd hw _
      simp [hd, hw]
  · have hfl : uvm_tools_flush_events mid st =
        { channels := mid, worker := [],
          delivered := st.delivered ++ (st.worker ++ st.channels.flatMap (fun c => c.recs)) } := by
      unfold uvm_tools_flush_events tools_schedule_completed_events nv_kthread_q_flush
      rw [if_neg hn]
      simp only [progressFirst_spec st.channels mid hwf, releaseFirst_spec st.channels mid]
    rw [hfl]
    refine ⟨rfl, ?_, ?_, fun _ => ⟨rfl, rfl⟩, ?_⟩
    · intro r hr
      simp [hr]
    · intro r hr
      simp [hr]
    · intro r _ hd hw hc
      simp [hd, hw, hc]

/-- Witness for C3: channels A (id 1, records 10, 11) and B (id 2, record
20) pending at flush start, channel C (id 3, record 30) added mid-flush:
flush delivers 10, 11, 20, not 30, and only C stays pending. -/
theorem c3_flush_covers_snapshot_only_witness :
    (∀ c ∈ ([⟨1, 2, [10, 11]⟩, ⟨2, 1, [20]⟩] : List channel_tools_t),
      c.pending_event_count = c.recs.length) ∧
    (uvm_tools_flush_events [⟨3, 1, [30]⟩]
      ⟨[⟨1, 2, [10, 11]⟩, ⟨2, 1, [20]⟩], [], []⟩).channels = [⟨3, 1, [30]⟩] ∧
    (uvm_tools_flush_events [⟨3, 1, [30]⟩]
      ⟨[⟨1, 2, [10, 11]⟩, ⟨2, 1, [20]⟩], [], []⟩).delivered =
      [] ++ ([] ++ [10, 11, 20]) ∧
    (30 : Nat) ∉ (uvm_tools_flush_events [⟨3, 1, [30]⟩]
      ⟨[⟨1, 2, [10, 11]⟩, ⟨2, 1, [20]⟩], [], []⟩).delivered := by
  have h := c3_flush_covers_snapshot_only
    ⟨[⟨1, 2, [10, 11]⟩, ⟨2, 1, [20]⟩], [], []⟩ [⟨3, 1, [30]⟩]
    (by intro c hc; fin_cases hc <;> rfl)
  refine ⟨by intro c hc; fin_cases hc <;> rfl, (h.2.2.2.1 (by decide)).1, ?_, ?_⟩
  · have := (h.2.2.2.1 (by decide)).2
    simpa using this
  · exact h.2.2.2.2 30 (by decide) (by decide) (by decide) (by decide)

end UvmTools
